import Mathlib

/-!
# Librecast: a shallow embedding of `src/librecast.c`

The C library is embedded as pure Lean functions with explicit state passing.

Modelling conventions

* A byte is a `Nat` below 256; an IPv6 address (`struct in6_addr`) is the list of its 16 bytes.
* Unsigned machine integers are `Nat` with an explicit `% 2 ^ w` at every place where the
  C code can wrap (`uint32_t` identifiers, `uint64_t` sequence numbers, the `uint8_t` opcode
  of the wire header).
* A pointer to a context, socket or channel is the `ptr` field of the record it points to
  (the address `calloc` returned); `none` is `NULL`.  The intrusive singly linked lists
  (`chan_list`, `sock_list`, `grps`) are Lean lists in chain order, head first.
* Results of operating-system calls that the library cannot influence (the clock, the random
  device, the return value of `sendto`, the addresses `calloc` hands out, the queue of
  datagrams waiting on the socket) are explicit arguments.
* `calloc` and `malloc` are taken to succeed; the out-of-memory returns are not modelled.
* Where the object representation of a value matters (the `next` pointer read by the
  comparison in `lc_socket_group_del`, the `flags` word fed to the hash) the host is LP64
  little-endian.
* User callbacks and the optional message logger are observers: each call is recorded in a
  trace of events together with the message it was given.
-/

namespace Librecast

/-! ## Build configuration -/

/-- Compile-time constants and switches that live outside `librecast.c`.

* `LC_DEFAULT_PORT`, `AF_INET6`, `LC_OP_MAX` come from headers that are not part of the
  sources at hand (`librecast/types.h`, the system headers).
* `hash` is the unkeyed generic hash of `hash.h` (init with no key, update, final) as a
  function from the bytes fed to it to the digest bytes.
* `softfilter` is true on a build where `IPV6_MULTICAST_ALL` is not defined, that is where
  the software join set is compiled in.
* `logger` tells whether the global `lc_msg_logger` hook is set. -/
structure lc_config where
  LC_DEFAULT_PORT : Nat
  AF_INET6 : Nat
  LC_OP_MAX : Nat
  hash : List Nat → List Nat
  softfilter : Bool
  logger : Bool

/-! ## Bytes and integers -/

/-- The 16 bytes of a `struct in6_addr`. -/
abbrev in6_addr := List Nat

/-- Size of a `struct in6_addr`. -/
def IN6_SIZE : Nat := 16

/-- Digest size asked of the hash in `lc_hashgroup` (`HASHSIZE`).
Modelled from the spec: `hash.h` is not part of the sources; the spec says the
hash produces 16-byte digests. -/
def HASHSIZE : Nat := 16

/-- Big-endian bytes of a 64-bit value: what `htobe64 x` leaves in memory. -/
def be64 (x : Nat) : List Nat :=
  [x / 2 ^ 56 % 256, x / 2 ^ 48 % 256, x / 2 ^ 40 % 256, x / 2 ^ 32 % 256,
   x / 2 ^ 24 % 256, x / 2 ^ 16 % 256, x / 2 ^ 8 % 256, x % 256]

/-- The value `be64toh` reads from 8 bytes of memory (missing bytes read as 0). -/
def be64toh (bs : List Nat) : Nat :=
  (bs.getD 0 0 % 256) * 2 ^ 56 + (bs.getD 1 0 % 256) * 2 ^ 48 + (bs.getD 2 0 % 256) * 2 ^ 40
    + (bs.getD 3 0 % 256) * 2 ^ 32 + (bs.getD 4 0 % 256) * 2 ^ 24
    + (bs.getD 5 0 % 256) * 2 ^ 16 + (bs.getD 6 0 % 256) * 2 ^ 8 + (bs.getD 7 0 % 256)

/-- Little-endian bytes of a 64-bit value: the object representation of a `uint64_t`
or of a pointer on the LP64 little-endian hosts the model fixes. -/
def le64 (x : Nat) : List Nat :=
  [x % 256, x / 2 ^ 8 % 256, x / 2 ^ 16 % 256, x / 2 ^ 24 % 256,
   x / 2 ^ 32 % 256, x / 2 ^ 40 % 256, x / 2 ^ 48 % 256, x / 2 ^ 56 % 256]

/-- The value `htons x` has on the little-endian host: the two bytes of `x` swapped. -/
def htons (x : Nat) : Nat :=
  (x % 256) * 256 + x / 256 % 256

/-- Object representation of an `unsigned int` (32 bits, little-endian host). -/
def le32 (x : Nat) : List Nat :=
  [x % 256, x / 2 ^ 8 % 256, x / 2 ^ 16 % 256, x / 2 ^ 24 % 256]

/-! ## Data model (`librecast_pvt.h`) -/

/-- The fields of `struct sockaddr_in6` the library sets. -/
structure sockaddr_in6 where
  sin6_family : Nat
  sin6_port : Nat
  sin6_addr : in6_addr
deriving DecidableEq, Repr

/-- Node of the software join set (`struct lc_grplist_s`).  The `next` pointer of a node
is the address of the node that follows it in the chain, so a node records the address
`calloc` gave it (`addr`) and the chain is kept as a list. -/
structure lc_grplist_s where
  addr : Nat
  grp : in6_addr
deriving DecidableEq, Repr

/-- Socket record (`lc_socket_t`). -/
structure lc_socket_t where
  ptr : Nat
  ctx : Nat
  thread : Nat
  id : Nat
  ifx : Nat
  grps : List lc_grplist_s
  bound : Int
  sock : Int
deriving DecidableEq, Repr

/-- Channel record (`lc_channel_t`). -/
structure lc_channel_t where
  ptr : Nat
  ctx : Nat
  sock : Option Nat
  sa : sockaddr_in6
  uri : Option (List Nat)
  id : Nat
  seq : Nat
  rnd : Nat
deriving DecidableEq, Repr

/-- Context record (`lc_ctx_t`). -/
structure lc_ctx_t where
  ptr : Nat
  id : Nat
  sock_list : List lc_socket_t
  chan_list : List lc_channel_t
  sock : Int
deriving DecidableEq, Repr

/-- The process-wide counters `ctx_id`, `sock_id`, `chan_id` (all `uint32_t`). -/
structure lc_globals where
  ctx_id : Nat
  sock_id : Nat
  chan_id : Nat
deriving DecidableEq, Repr

/-! ## Address derivation -/

/-- The result of `inet_pton(AF_INET6, DEFAULT_ADDR, ...)` for `DEFAULT_ADDR = "ff1e::"`. -/
def DEFAULT_ADDR : Option in6_addr :=
  some [0xff, 0x1e, 0, 0, 0, 0, 0, 0, 0, 0, 0, 0, 0, 0, 0, 0]

/-- The buffer `hashgrp` after `hash_init; hash_update(group); hash_update(&flags);
hash_final`: the `HASHSIZE` digest bytes of the name followed by the bytes of `flags`. -/
def hashgrp (cfg : lc_config) (group : List Nat) (flags : Nat) : List Nat :=
  (List.range HASHSIZE).map (fun i => (cfg.hash (group ++ le32 flags)).getD i 0 % 256)

/-- The loop `for (i = 2; i < 16; i++) addr[i] ^= hashgrp[i]`. -/
def xor_from2 (addr h : List Nat) : List Nat :=
  (List.range IN6_SIZE).map
    (fun i => if 2 ≤ i then (addr.getD i 0) ^^^ (h.getD i 0) else addr.getD i 0)

/-- Function `lc_hashgroup`: `baseaddr` is what `inet_pton` makes of the base address
string (`none` when it does not parse, in which case LC_ERROR_INVALID_BASEADDR is
returned and no address is produced). -/
def lc_hashgroup (cfg : lc_config) (baseaddr : Option in6_addr) (group : List Nat)
    (flags : Nat) : Option in6_addr :=
  match baseaddr with
  | none => none
  | some base => some (xor_from2 base (hashgrp cfg group flags))

/-! ## Channel registry -/

/-- Function `lc_channel_ins`: push the channel on the head of the context's list. -/
def lc_channel_ins (ctx : lc_ctx_t) (chan : lc_channel_t) : lc_ctx_t × lc_channel_t :=
  ({ ctx with chan_list := chan :: ctx.chan_list }, chan)

/-- Function `lc_channel_setid`: `chan->id = ++chan_id`. -/
def lc_channel_setid (g : lc_globals) (chan : lc_channel_t) : lc_globals × lc_channel_t :=
  let n := (g.chan_id + 1) % 2 ^ 32
  ({ g with chan_id := n }, { chan with id := n })

/-- A `calloc`ed channel at address `p`: every field zero. -/
def calloc_channel (p : Nat) : lc_channel_t :=
  { ptr := p, ctx := 0, sock := none, sa := ⟨0, 0, List.replicate 16 0⟩, uri := none,
    id := 0, seq := 0, rnd := 0 }

/-- Function `lc_channel_init`; `p` is the address of the new channel. -/
def lc_channel_init (g : lc_globals) (ctx : lc_ctx_t) (p : Nat) (sa : sockaddr_in6) :
    lc_globals × lc_ctx_t × lc_channel_t :=
  let chan := { calloc_channel p with ctx := ctx.ptr }
  let (g1, chan1) := lc_channel_setid g chan
  let chan2 := { chan1 with sa := sa }
  let (ctx1, chan3) := lc_channel_ins ctx chan2
  (g1, ctx1, chan3)

/-- Function `lc_channel_copy`. -/
def lc_channel_copy (g : lc_globals) (ctx : lc_ctx_t) (p : Nat) (chan : lc_channel_t) :
    lc_globals × lc_ctx_t × lc_channel_t :=
  let copy := { calloc_channel p with ctx := ctx.ptr }
  let (g1, copy1) := lc_channel_setid g copy
  let copy2 := { copy1 with sa := chan.sa }
  let (ctx1, copy3) := lc_channel_ins ctx copy2
  (g1, ctx1, copy3)

/-- Function `lc_channel_nnew`: `none` is the `NULL` returned when `lc_hashgroup` fails. -/
def lc_channel_nnew (cfg : lc_config) (g : lc_globals) (ctx : lc_ctx_t) (p : Nat)
    (s : List Nat) : Option (lc_globals × lc_ctx_t × lc_channel_t) :=
  match lc_hashgroup cfg DEFAULT_ADDR s 0 with
  | none => none
  | some addr =>
    some (lc_channel_init g ctx p
      { sin6_family := cfg.AF_INET6, sin6_port := htons cfg.LC_DEFAULT_PORT,
        sin6_addr := addr })

/-- Function `lc_channel_new`: `s` holds the bytes of the string up to its terminator;
the `uri` pointer of the channel is set in the context's list as well, since the
returned pointer is the list node.  A `NULL` from `lc_channel_nnew` would be
dereferenced, which is `none` here. -/
def lc_channel_new (cfg : lc_config) (g : lc_globals) (ctx : lc_ctx_t) (p : Nat)
    (s : List Nat) : Option (lc_globals × lc_ctx_t × lc_channel_t) :=
  match lc_channel_nnew cfg g ctx p s with
  | none => none
  | some (g1, ctx1, chan) =>
    let chan1 := { chan with uri := some s }
    some (g1, { ctx1 with chan_list := chan1 :: ctx1.chan_list.tail }, chan1)

/-! ## Messages and wire framing -/

/-- Message record (`lc_message_t`).  `data` is the payload buffer the pointer refers to
(`none` is `NULL`); its length is the size of the allocation, which is independent of the
`len` field.  `free` tells whether the payload-free function pointer is set.  `srcaddr`
and `dstaddr` stand for the text `inet_ntop` renders, kept as the address rendered. -/
structure lc_message_t where
  dst : in6_addr
  src : in6_addr
  timestamp : Nat
  seq : Nat
  rnd : Nat
  len : Nat
  bytes : Int
  sockid : Nat
  op : Nat
  free : Bool
  chan : Option Nat
  srcaddr : in6_addr
  dstaddr : in6_addr
  data : Option (List Nat)
deriving DecidableEq, Repr

/-- Size of the packed `lc_message_head_t`: three 64-bit fields, the 8-bit opcode and the
64-bit length. -/
def HEAD_SIZE : Nat := 33

/-- Opcode `LC_OP_DATA`. -/
def LC_OP_DATA : Nat := 0
/-- Opcode `LC_OP_PING`. -/
def LC_OP_PING : Nat := 1
/-- Opcode `LC_OP_PONG`. -/
def LC_OP_PONG : Nat := 2

/-- Error codes the modelled paths return (negative integers in C). -/
inductive lc_error where
  | LC_ERROR_SOCKET_REQUIRED
  | LC_ERROR_MESSAGE_EMPTY
  | LC_ERROR_INVALID_BASEADDR
deriving DecidableEq, Repr

/-- Function `lc_msg_init`: `memset(msg, 0, sizeof *msg)`. -/
def lc_msg_init : lc_message_t :=
  { dst := List.replicate 16 0, src := List.replicate 16 0, timestamp := 0, seq := 0,
    rnd := 0, len := 0, bytes := 0, sockid := 0, op := 0, free := false, chan := none,
    srcaddr := [], dstaddr := [], data := none }

/-- Function `lc_msg_init_size`: the buffer `malloc` returns has `len` bytes; their
content is indeterminate in C and is written as zeros here (the receive path overwrites
all of them). -/
def lc_msg_init_size (len : Nat) : lc_message_t :=
  { lc_msg_init with data := some (List.replicate len 0), len := len, free := true }

/-- Function `lc_msg_init_data`. -/
def lc_msg_init_data (data : Option (List Nat)) (len : Nat) (f : Bool) : lc_message_t :=
  { lc_msg_init with len := len, data := data, free := f }

/-- Function `lc_msg_free`. -/
def lc_msg_free (msg : lc_message_t) : lc_message_t :=
  if msg.free then { msg with data := none } else msg

/-- Function `lc_msg_set` with attribute `LC_ATTR_OPCODE`. -/
def lc_msg_set_opcode (msg : lc_message_t) (value : Nat) : lc_message_t :=
  { msg with op := value }

/-- What the operating system contributes to one `lc_msg_send`: the realtime clock in
nanoseconds (`none` when `clock_gettime` fails), the eight bytes the random device leaves in
`head->rnd` read as a big-endian number, and the return value of `sendto`. -/
structure send_os where
  clock : Option Nat
  rnd : Nat
  sendto : Int
deriving DecidableEq, Repr

/-- Outcome of `lc_msg_send`: the return value, the channel after the call and, when
`sendto` was called, the socket it was called on, the destination and the buffer. -/
structure send_result where
  ret : Except lc_error Int
  chan : lc_channel_t
  wire : Option (Nat × sockaddr_in6 × List Nat)

/-- The 33 bytes of a `lc_message_head_t` whose `timestamp`, `seq` and `len` were stored
through `htobe64`, whose `rnd` holds the random bytes and whose `op` is the `uint8_t`
truncation of the opcode. -/
def head_bytes (timestamp seq rnd op len : Nat) : List Nat :=
  be64 timestamp ++ be64 seq ++ be64 rnd ++ [op % 256] ++ be64 len

/-- Function `lc_msg_send`.  `none` is undefined behaviour: the `memcpy` of `msg->len`
bytes reads past the end of the payload buffer. -/
def lc_msg_send (os : send_os) (chan : lc_channel_t) (msg : lc_message_t) :
    Option send_result :=
  match chan.sock with
  | none => some ⟨.error .LC_ERROR_SOCKET_REQUIRED, chan, none⟩
  | some s =>
    if 0 < msg.len ∧ msg.data = none then some ⟨.error .LC_ERROR_MESSAGE_EMPTY, chan, none⟩
    else
      let timestamp :=
        if msg.timestamp ≠ 0 then msg.timestamp
        else match os.clock with
          | some t => t % 2 ^ 64
          | none => 0
      let seq := (chan.seq + 1) % 2 ^ 64
      let chan1 := { chan with seq := seq }
      let head := head_bytes timestamp seq os.rnd msg.op msg.len
      let data := msg.data.getD []
      if data.length < msg.len then none
      else
        let buf := head ++ data.take msg.len
        some ⟨.ok os.sendto, chan1, some (s, chan.sa, buf)⟩

/-- Function `lc_socket_group_joined`: 1 when some node of the join set holds `grp`. -/
def lc_socket_group_joined_loop (grp : in6_addr) : List lc_grplist_s → Nat
  | [] => 0
  | g :: rest => if g.grp = grp then 1 else lc_socket_group_joined_loop grp rest

/-- Function `lc_socket_group_joined`. -/
def lc_socket_group_joined (sock : lc_socket_t) (grp : in6_addr) : Nat :=
  lc_socket_group_joined_loop grp sock.grps

/-- One datagram waiting on the socket: its bytes, the source address `recvmsg` reports
and the destination address of its `IPV6_PKTINFO` control message when there is one. -/
structure datagram where
  bytes : List Nat
  src : in6_addr
  pktinfo : Option in6_addr
deriving DecidableEq, Repr

/-- What the next receive on the socket meets: a datagram, or a failing system call. -/
inductive rx_event where
  | dgram (d : datagram)
  | error
deriving DecidableEq, Repr

/-- Outcome of `lc_msg_recv`: return value, the message, what is left on the socket and
the content of the local header buffer. -/
structure recv_result where
  ret : Int
  msg : lc_message_t
  queue : List rx_event
  buf : List Nat
deriving DecidableEq, Repr

/-- Decoding of the local header buffer into the message (`memcpy(&head, buf, ...)` and
the five assignments that follow). -/
def decode_head (buf : List Nat) (msg : lc_message_t) : lc_message_t :=
  { msg with
    seq := be64toh ((buf.drop 8).take 8)
    rnd := be64toh ((buf.drop 16).take 8)
    len := be64toh ((buf.drop 25).take 8)
    timestamp := be64toh (buf.take 8)
    op := buf.getD 24 0 % 256 }

/-- Function `lc_msg_recv`.  `queue` is what waits on the socket, `msg` the message
record as the caller passes it, `buf` the content the local array `buf` starts with
(it is not initialised in C).  `none`: the call blocks, nothing is left to receive. -/
def lc_msg_recv (cfg : lc_config) (sock : lc_socket_t) :
    List rx_event → lc_message_t → List Nat → Option recv_result
  | [], _, _ => none
  | .error :: q, msg, buf => some ⟨-1, msg, q, buf⟩
  | .dgram d :: q, msg, buf =>
    -- peek: the full size of the datagram
    let zi := d.bytes.length
    let msg1 := if HEAD_SIZE < zi then lc_msg_init_size (zi - HEAD_SIZE) else msg
    -- recvmsg scatters into `buf` and then into `msg->data`, `msg->len` bytes at most
    let hd := d.bytes.take HEAD_SIZE
    let buf1 := hd ++ buf.drop hd.length
    let pl := (d.bytes.drop HEAD_SIZE).take msg1.len
    let msg2 := { msg1 with data := msg1.data.map (fun old => pl ++ old.drop pl.length) }
    let zi2 : Int := ((hd.length + pl.length : Nat) : Int)
    if zi2 ≤ 0 then some ⟨zi2, msg2, q, buf1⟩
    else
      let msg3 := decode_head buf1 msg2
      match d.pktinfo with
      | none => some ⟨zi2, msg3, q, buf1⟩
      | some dst =>
        let msg4 := { msg3 with dst := dst, src := d.src }
        if cfg.softfilter ∧ lc_socket_group_joined sock dst = 0 then
          lc_msg_recv cfg sock q msg4 buf1
        else some ⟨zi2, msg4, q, buf1⟩

/-! ## Pointers into a context -/

/-- Dereference a socket pointer: the socket of the context that lives at address `p`. -/
def sock_at (ctx : lc_ctx_t) (p : Nat) : Option lc_socket_t :=
  ctx.sock_list.find? (fun s => s.ptr = p)

/-- Dereference a channel pointer. -/
def chan_at (ctx : lc_ctx_t) (p : Nat) : Option lc_channel_t :=
  ctx.chan_list.find? (fun c => c.ptr = p)

/-- Store through a socket pointer. -/
def sock_store (ctx : lc_ctx_t) (s : lc_socket_t) : lc_ctx_t :=
  { ctx with sock_list := ctx.sock_list.map (fun x => if x.ptr = s.ptr then s else x) }

/-- Store through a channel pointer. -/
def chan_store (ctx : lc_ctx_t) (c : lc_channel_t) : lc_ctx_t :=
  { ctx with chan_list := ctx.chan_list.map (fun x => if x.ptr = c.ptr then c else x) }

/-! ## Listener and dispatch -/

/-- What the library does to the outside world, in order. -/
inductive lc_event where
  | callback_msg (msg : lc_message_t)
  | callback_err (code : Int)
  | msg_logger (chan : Nat) (msg : lc_message_t)
  | sendto (sock : Nat) (sa : sockaddr_in6) (buf : List Nat)
deriving DecidableEq, Repr

/-- Call record of a listener (`lc_socket_call_t`): the socket pointer and whether each of
the two user callbacks is set. -/
structure lc_socket_call_t where
  sock : Nat
  callback_msg : Bool
  callback_err : Bool
deriving DecidableEq, Repr

/-- Function `lc_channel_by_address`: first channel of the list with that group address. -/
def lc_channel_by_address (lctx : lc_ctx_t) (addr : in6_addr) : Option lc_channel_t :=
  lctx.chan_list.find? (fun p => p.sa.sin6_addr = addr)

/-- Function `lc_op_data_handler`. -/
def lc_op_data_handler (sc : lc_socket_call_t) (msg : lc_message_t) : List lc_event :=
  if sc.callback_msg then [.callback_msg msg] else []

/-- Function `lc_op_pong_handler`. -/
def lc_op_pong_handler (sc : lc_socket_call_t) (msg : lc_message_t) : List lc_event :=
  if sc.callback_msg then [.callback_msg msg] else []

/-- Function `lc_op_ping_handler`: the opcode is rewritten to PONG and the message sent on
`msg->chan`.  `none`: `msg->chan` is `NULL` or dangling, or the send reads out of bounds. -/
def lc_op_ping_handler (os : send_os) (ctx : lc_ctx_t) (msg : lc_message_t) :
    Option (lc_ctx_t × lc_message_t × List lc_event) :=
  let msg1 := lc_msg_set_opcode msg LC_OP_PONG
  match msg1.chan with
  | none => none
  | some p =>
    match chan_at ctx p with
    | none => none
    | some chan =>
      match lc_msg_send os chan msg1 with
      | none => none
      | some r =>
        let ev := match r.wire with
          | some (s, sa, buf) => [lc_event.sendto s sa buf]
          | none => []
        some (chan_store ctx r.chan, msg1, ev)

/-- Function `process_msg`; `sock` is the socket `sc->sock` points to and `ctx` its context. -/
def process_msg (cfg : lc_config) (os : send_os) (ctx : lc_ctx_t) (sock : lc_socket_t)
    (sc : lc_socket_call_t) (msg : lc_message_t) :
    Option (lc_ctx_t × lc_message_t × List lc_event) :=
  let msg1 := { msg with dstaddr := msg.dst, srcaddr := msg.src, sockid := sock.id }
  -- update channel stats
  let (ctx1, msg2, ev1) :=
    match lc_channel_by_address ctx msg1.dst with
    | some chan =>
      let msg2 := { msg1 with chan := some chan.ptr }
      let seq := if chan.seq < msg2.seq then (msg2.seq + 1) % 2 ^ 64 else (chan.seq + 1) % 2 ^ 64
      let chan1 := { chan with seq := seq, rnd := msg2.rnd }
      (chan_store ctx chan1, msg2, if cfg.logger then [lc_event.msg_logger chan.ptr msg2] else [])
    | none => (ctx, msg1, [])
  -- opcode handler
  let handled : Option (lc_ctx_t × lc_message_t × List lc_event) :=
    if msg2.op < cfg.LC_OP_MAX then
      if msg2.op = LC_OP_DATA then some (ctx1, msg2, lc_op_data_handler sc msg2)
      else if msg2.op = LC_OP_PING then lc_op_ping_handler os ctx1 msg2
      else if msg2.op = LC_OP_PONG then some (ctx1, msg2, lc_op_pong_handler sc msg2)
      else some (ctx1, msg2, [])
    else some (ctx1, msg2, [])
  match handled with
  | none => none
  | some (ctx2, msg3, ev2) =>
    -- callback to message handler
    some (ctx2, msg3, ev1 ++ ev2 ++ (if sc.callback_msg then [lc_event.callback_msg msg3] else []))

/-- One turn of the `while (1)` loop of `lc_socket_listen_thread`.  `msg` is the listener's
message record as the previous turn left it, `queue` what waits on the socket, `buf` the
stack content `lc_msg_recv` finds in its header buffer.  `none`: the receive blocks, or
the turn runs into undefined behaviour. -/
def lc_socket_listen_thread_step (cfg : lc_config) (os : send_os) (ctx : lc_ctx_t)
    (sc : lc_socket_call_t) (msg : lc_message_t) (queue : List rx_event) (buf : List Nat) :
    Option (lc_ctx_t × lc_message_t × List rx_event × List lc_event) :=
  match sock_at ctx sc.sock with
  | none => none
  | some sock =>
    match lc_msg_recv cfg sock queue msg buf with
    | none => none
    | some r =>
      let len := r.ret
      let processed : Option (lc_ctx_t × lc_message_t × List lc_event) :=
        if 0 < len then process_msg cfg os ctx sock sc { r.msg with bytes := len }
        else some (ctx, r.msg, [])
      match processed with
      | none => none
      | some (ctx1, msg1, ev1) =>
        let (msg2, ev2) :=
          if len < 0 then
            (lc_msg_free msg1, if sc.callback_err then [lc_event.callback_err len] else [])
          else (msg1, [])
        some (ctx1, lc_msg_free msg2, r.queue, ev1 ++ ev2)

/-! ## Sockets, binding and group membership -/

/-- Function `lc_ctx_new`; `p` is the address of the new context. -/
def lc_ctx_new (g : lc_globals) (p : Nat) : lc_globals × lc_ctx_t :=
  let n := (g.ctx_id + 1) % 2 ^ 32
  ({ g with ctx_id := n }, { ptr := p, id := n, sock_list := [], chan_list := [], sock := -1 })

/-- Function `lc_socket_new`; `p` is the address of the new socket, `fd` the descriptor
`socket` returns (`none` when it fails) and `opts` whether every `setsockopt` succeeds.
On failure the record is released but was already linked into `sock_list`, where it stays. -/
def lc_socket_new (g : lc_globals) (ctx : lc_ctx_t) (p : Nat) (fd : Option Int)
    (opts : Bool) : lc_globals × lc_ctx_t × Option lc_socket_t :=
  let n := (g.sock_id + 1) % 2 ^ 32
  let sock : lc_socket_t :=
    { ptr := p, ctx := ctx.ptr, thread := 0, id := n, ifx := 0, grps := [], bound := 0,
      sock := 0 }
  let g1 := { g with sock_id := n }
  match fd with
  | none => (g1, { ctx with sock_list := sock :: ctx.sock_list }, none)
  | some s =>
    let sock1 := { sock with sock := s }
    let ctx1 := { ctx with sock_list := sock1 :: ctx.sock_list }
    if opts then (g1, ctx1, some sock1) else (g1, ctx1, none)

/-- Function `lc_channel_bind`; `rc_bind_addr` is what `lc_socket_bind_addr` returns when
it is called.  `none`: one of the two pointers is not valid. -/
def lc_channel_bind (ctx : lc_ctx_t) (sockp chanp : Nat) (rc_bind_addr : Int) :
    Option (lc_ctx_t × Int) :=
  match sock_at ctx sockp, chan_at ctx chanp with
  | some sock, some chan =>
    let rc := if sock.bound ≠ 0 then 0 else rc_bind_addr
    if rc = 0 then
      let ctx1 := chan_store ctx { chan with sock := some sockp }
      some (sock_store ctx1 { sock with bound := sock.bound + 1 }, rc)
    else some (ctx, rc)
  | _, _ => none

/-- Function `lc_channel_unbind`.  `none`: `chan->sock` is `NULL` or a pointer is not valid. -/
def lc_channel_unbind (ctx : lc_ctx_t) (chanp : Nat) : Option (lc_ctx_t × Int) :=
  match chan_at ctx chanp with
  | none => none
  | some chan =>
    match chan.sock with
    | none => none
    | some sockp =>
      match sock_at ctx sockp with
      | none => none
      | some sock =>
        let ctx1 := sock_store ctx { sock with bound := sock.bound - 1 }
        some (chan_store ctx1 { chan with sock := none }, 0)

/-- The chain a `prev`-pointer unlink loop leaves behind, starting from a node that is
still linked.  The loop visits the nodes in their original order; when the node after `n`
matches, `n->next` is set to the node after that one, which then stays linked whether or
not it matches itself (its own unlinking writes into the node just removed). -/
def unlink_walk {α : Type} (m : α → List α → Bool) : List α → List α
  | [] => []
  | [n] => [n]
  | n :: x :: rest => if m x rest then n :: unlink_walk m rest else n :: unlink_walk m (x :: rest)

/-- Function `lc_channel_free`: every node whose `id` equals `chan->id` is unlinked by
`prev->next = p->next`, or by `chan_list = p->next` when there is no `prev`. -/
def lc_channel_free (ctx : lc_ctx_t) (chan : lc_channel_t) : lc_ctx_t :=
  let m : lc_channel_t → List lc_channel_t → Bool := fun p _ => p.id = chan.id
  match ctx.chan_list with
  | [] => ctx
  | p :: rest =>
    if m p rest then { ctx with chan_list := unlink_walk m rest }
    else { ctx with chan_list := unlink_walk m (p :: rest) }

/-- Function `lc_socket_group_add`; `a` is the address of the node `calloc` returns. -/
def lc_socket_group_add_loop (a : Nat) (grp : in6_addr) : List lc_grplist_s → List lc_grplist_s
  | [] => [⟨a, grp⟩]
  | g :: rest =>
    if g.grp = grp then g :: rest else g :: lc_socket_group_add_loop a grp rest

/-- Function `lc_socket_group_add`. -/
def lc_socket_group_add (sock : lc_socket_t) (a : Nat) (grp : in6_addr) : lc_socket_t :=
  { sock with grps := lc_socket_group_add_loop a grp sock.grps }

/-- The value of `g->next` for a node followed by `rest`. -/
def next_ptr : List lc_grplist_s → Nat
  | [] => 0
  | n :: _ => n.addr

/-- The comparison `memcmp(g, grp, sizeof(struct in6_addr)) == 0` of `lc_socket_group_del`.
Its first argument is the node `g`, not `&g->grp`: the 16 bytes compared with the group
are the first 16 bytes of the node, that is the 8 bytes of its `next` pointer followed by
the first 8 bytes of its `grp` field. -/
def del_memcmp (grp : in6_addr) (g : lc_grplist_s) (rest : List lc_grplist_s) : Bool :=
  (le64 (next_ptr rest) ++ g.grp.take 8) = grp

/-- The loop of `lc_socket_group_del`.  On a node that matches, the body unlinks it
(`prev->next = g->next`, or `sock->grps = NULL` for the head), calls `free(g)`, and the loop
then advances with `g = g->next`, a read of the node just freed: undefined behaviour, `none`.
On a node that does not match nothing is written. -/
def lc_socket_group_del_loop (grp : in6_addr) : List lc_grplist_s → Option Unit
  | [] => some ()
  | g :: rest =>
    if del_memcmp grp g rest then none else lc_socket_group_del_loop grp rest

/-- Function `lc_socket_group_del`.  When no node matches the join set is left as it was;
`none` when a node matches (the loop reads freed memory). -/
def lc_socket_group_del (sock : lc_socket_t) (grp : in6_addr) : Option lc_socket_t :=
  match lc_socket_group_del_loop grp sock.grps with
  | none => none
  | some _ => some sock

/-- Function `lc_channel_membership` without the system calls: the change to the software
join set of the channel's socket (`join` is `opt == IPV6_JOIN_GROUP`).  `none`: the leave
runs into the undefined read of `lc_socket_group_del`. -/
def lc_channel_membership (cfg : lc_config) (sock : lc_socket_t) (chan : lc_channel_t)
    (join : Bool) (a : Nat) : Option lc_socket_t :=
  if cfg.softfilter then
    if join then some (lc_socket_group_add sock a chan.sa.sin6_addr)
    else lc_socket_group_del sock chan.sa.sin6_addr
  else some sock

/-- Function `lc_channel_action`; `rc` is the result of the membership system calls.
`none`: a pointer is not valid, or the membership change is undefined. -/
def lc_channel_action (cfg : lc_config) (ctx : lc_ctx_t) (chanp : Nat) (join : Bool)
    (a : Nat) (rc : Int) : Option (lc_ctx_t × Except lc_error Int) :=
  match chan_at ctx chanp with
  | none => none
  | some chan =>
    match chan.sock with
    | none => some (ctx, .error .LC_ERROR_SOCKET_REQUIRED)
    | some sockp =>
      match sock_at ctx sockp with
      | none => none
      | some sock =>
        match lc_channel_membership cfg sock chan join a with
        | none => none
        | some sock1 => some (sock_store ctx sock1, .ok rc)

/-- Function `lc_channel_part`. -/
def lc_channel_part (cfg : lc_config) (ctx : lc_ctx_t) (chanp : Nat) (rc : Int) :
    Option (lc_ctx_t × Except lc_error Int) :=
  lc_channel_action cfg ctx chanp false 0 rc

/-- Function `lc_channel_join`; `a` is the address of the join-set node it may allocate. -/
def lc_channel_join (cfg : lc_config) (ctx : lc_ctx_t) (chanp : Nat) (a : Nat) (rc : Int) :
    Option (lc_ctx_t × Except lc_error Int) :=
  lc_channel_action cfg ctx chanp true a rc

/-! ## Concrete inputs used by the witnesses and counterexamples -/

/-- A build with the software join set, three opcodes and a toy hash. -/
def ex_cfg : lc_config :=
  { LC_DEFAULT_PORT := 4242, AF_INET6 := 10, LC_OP_MAX := 3,
    hash := fun bs => List.replicate 16 (bs.length % 256), softfilter := true, logger := false }

/-- Group `ff1e::1`. -/
def ex_A : in6_addr := [0xff, 0x1e, 0, 0, 0, 0, 0, 0, 0, 0, 0, 0, 0, 0, 0, 1]

/-- Group `ff1e::2`. -/
def ex_B : in6_addr := [0xff, 0x1e, 0, 0, 0, 0, 0, 0, 0, 0, 0, 0, 0, 0, 0, 2]

/-- A sender address. -/
def ex_src : in6_addr := [0xfe, 0x80, 0, 0, 0, 0, 0, 0, 0, 0, 0, 0, 0, 0, 0, 9]

/-- A socket at address 100 that has joined `ex_A`. -/
def ex_sock : lc_socket_t :=
  { ptr := 100, ctx := 1, thread := 0, id := 1, ifx := 0, grps := [⟨4096, ex_A⟩], bound := 1,
    sock := 3 }

/-- A channel for `ex_A` at address 200, bound to `ex_sock`, with sequence 7. -/
def ex_chan : lc_channel_t :=
  { ptr := 200, ctx := 1, sock := some 100, sa := ⟨10, 4242, ex_A⟩, uri := none, id := 1,
    seq := 7, rnd := 0 }

/-- A context holding `ex_sock` and `ex_chan`. -/
def ex_ctx : lc_ctx_t :=
  { ptr := 1, id := 1, sock_list := [ex_sock], chan_list := [ex_chan], sock := -1 }

/-- A DATA message with the one-byte payload `x` and a caller timestamp. -/
def ex_msg : lc_message_t :=
  { lc_msg_init with data := some [120], len := 1, op := 0, timestamp := 1000 }

/-- Operating-system answers for one send. -/
def ex_os : send_os := { clock := some 5, rnd := 77, sendto := 34 }

/-- The DATA message the listener hands to the callback in the single-delivery example. -/
def ex_delivered : lc_message_t :=
  { dst := ex_A, src := ex_src, timestamp := 1000, seq := 1, rnd := 77, len := 1, bytes := 34,
    sockid := 1, op := 0, free := true, chan := some 200, srcaddr := ex_src, dstaddr := ex_A,
    data := some [120] }

/-- Whether an event is a call of `sendto`. -/
def is_sendto : lc_event → Bool
  | .sendto _ _ _ => true
  | _ => false

/-- Whether an event is a call of the user message callback. -/
def is_callback_msg : lc_event → Bool
  | .callback_msg _ => true
  | _ => false

/-! ## Scenarios: sequential sends and consecutive listener turns -/

/-- The state after a channel is created in a fresh context, bound to a fresh socket
and then freed: `lc_ctx_new`, `lc_socket_new`, `lc_channel_new "t"`, `lc_channel_bind`,
`lc_channel_free`. -/
def ex_bind_free : Option lc_ctx_t :=
  let (g1, ctx0) := lc_ctx_new ⟨0, 0, 0⟩ 1
  let (g2, ctx1, _) := lc_socket_new g1 ctx0 100 (some 3) true
  match lc_channel_new ex_cfg g2 ctx1 200 [116] with
  | none => none
  | some (_, ctx2, chan) =>
    match lc_channel_bind ctx2 100 chan.ptr 0 with
    | none => none
    | some (ctx3, _) =>
      match chan_at ctx3 chan.ptr with
      | none => none
      | some c => some (lc_channel_free ctx3 c)

/-- The state after one channel is bound twice to the same socket. -/
def ex_bind_twice : Option lc_ctx_t :=
  let (g1, ctx0) := lc_ctx_new ⟨0, 0, 0⟩ 1
  let (g2, ctx1, _) := lc_socket_new g1 ctx0 100 (some 3) true
  match lc_channel_new ex_cfg g2 ctx1 200 [116] with
  | none => none
  | some (_, ctx2, chan) =>
    match lc_channel_bind ctx2 100 chan.ptr 0 with
    | none => none
    | some (ctx3, _) => (lc_channel_bind ctx3 100 chan.ptr 0).map (fun r => r.1)

/-- For every socket of the context: its `bound` counter and the number of channels of the
context whose `sock` pointer is that socket. -/
def bound_and_count (ctx : lc_ctx_t) : List (Int × Nat) :=
  ctx.sock_list.map (fun s =>
    (s.bound, (ctx.chan_list.filter (fun c => c.sock = some s.ptr)).length))

/-- A context with one socket (address 100, nothing joined) and two channels bound to it,
one for `ff1e::1` at address 200 and one for `ff1e::2` at address 201. -/
def ex_ctx2 : lc_ctx_t :=
  { ptr := 1, id := 1,
    sock_list := [{ ptr := 100, ctx := 1, thread := 0, id := 1, ifx := 0, grps := [],
                    bound := 2, sock := 3 }],
    chan_list := [{ ptr := 201, ctx := 1, sock := some 100, sa := ⟨10, 4242, ex_B⟩,
                    uri := none, id := 2, seq := 0, rnd := 0 },
                  { ptr := 200, ctx := 1, sock := some 100, sa := ⟨10, 4242, ex_A⟩,
                    uri := none, id := 1, seq := 0, rnd := 0 }],
    sock := -1 }

/-- Join `ff1e::1`, join `ff1e::2`, then leave `ff1e::1`, all on the socket of `ex_ctx2`;
the two join-set nodes are allocated at 0x1000 and 0x2000. -/
def ex_join_join_part : Option lc_ctx_t :=
  match lc_channel_join ex_cfg ex_ctx2 200 0x1000 0 with
  | none => none
  | some (ctx1, _) =>
    match lc_channel_join ex_cfg ctx1 201 0x2000 0 with
    | none => none
    | some (ctx2, _) => (lc_channel_part ex_cfg ctx2 200 0).map (fun r => r.1)

/-! ## Derived channels -/

/-- The store `*(uint64_t *)&in->s6_addr[8] = band` of `lc_channel_sideband`: bytes 8..15 of
the address take the object representation of `band`, bytes 0..7 stay. -/
def store_band (addr : in6_addr) (band : Nat) : in6_addr :=
  (List.range IN6_SIZE).map
    (fun i => if 8 ≤ i then (le64 band).getD (i - 8) 0 else addr.getD i 0)

/-- The value a `uint64_t` load reads from 8 bytes in host order (missing bytes read as 0). -/
def le64toh (bs : List Nat) : Nat :=
  (bs.getD 0 0 % 256) + (bs.getD 1 0 % 256) * 2 ^ 8 + (bs.getD 2 0 % 256) * 2 ^ 16
    + (bs.getD 3 0 % 256) * 2 ^ 24 + (bs.getD 4 0 % 256) * 2 ^ 32
    + (bs.getD 5 0 % 256) * 2 ^ 40 + (bs.getD 6 0 % 256) * 2 ^ 48
    + (bs.getD 7 0 % 256) * 2 ^ 56

/-- Function `lc_channel_sideband`; `ctx` is the context `base->ctx` points to and `p` the
address of the new channel.  The store goes through the pointer `lc_channel_copy` returns,
which is the head node of the context's list. -/
def lc_channel_sideband (g : lc_globals) (ctx : lc_ctx_t) (p : Nat) (base : lc_channel_t)
    (band : Nat) : lc_globals × lc_ctx_t × lc_channel_t :=
  let (g1, ctx1, side) := lc_channel_copy g ctx p base
  let side1 := { side with sa := { side.sa with sin6_addr := store_band side.sa.sin6_addr band } }
  (g1, { ctx1 with chan_list := side1 :: ctx1.chan_list.tail }, side1)

/-- A base channel for the sideband example; its address bytes 2..15 are 3, 4, ..., 16. -/
def ex_base : lc_channel_t :=
  { ptr := 200, ctx := 1, sock := some 100,
    sa := ⟨10, 4242, [0xff, 0x1e, 3, 4, 5, 6, 7, 8, 9, 10, 11, 12, 13, 14, 15, 16]⟩,
    uri := none, id := 1, seq := 7, rnd := 0 }

/-- The payloads (bytes after the 33-byte header) of the buffers handed to `sendto`, in
order. -/
def sendto_payloads : List lc_event → List (List Nat)
  | [] => []
  | .sendto _ _ buf :: rest => buf.drop HEAD_SIZE :: sendto_payloads rest
  | _ :: rest => sendto_payloads rest

/-! ## Theorems -/

/-- The digest buffer has 16 bytes. -/
theorem hashgrp_length (cfg : lc_config) (n : List Nat) (f : Nat) :
    (hashgrp cfg n f).length = 16 := by
  simp [hashgrp, HASHSIZE]

/-- The base address after the XOR loop, byte by byte. -/
theorem xor_from2_default (h : List Nat) :
    xor_from2 [0xff, 0x1e, 0, 0, 0, 0, 0, 0, 0, 0, 0, 0, 0, 0, 0, 0] h =
      [0xff, 0x1e, 0 ^^^ h.getD 2 0, 0 ^^^ h.getD 3 0, 0 ^^^ h.getD 4 0, 0 ^^^ h.getD 5 0,
       0 ^^^ h.getD 6 0, 0 ^^^ h.getD 7 0, 0 ^^^ h.getD 8 0, 0 ^^^ h.getD 9 0,
       0 ^^^ h.getD 10 0, 0 ^^^ h.getD 11 0, 0 ^^^ h.getD 12 0, 0 ^^^ h.getD 13 0,
       0 ^^^ h.getD 14 0, 0 ^^^ h.getD 15 0] := by
  simp [xor_from2, IN6_SIZE, List.range_succ]

/-- Byte `i` of the digest buffer is byte `i` of the hash of the name followed by the four
zero bytes of `flags = 0`. -/
theorem hashgrp_getD (cfg : lc_config) (n : List Nat) (i : Nat) (hi : i < 16) :
    (hashgrp cfg n 0)[i]?.getD 0 = (cfg.hash (n ++ [0, 0, 0, 0]))[i]?.getD 0 % 256 := by
  simp [hashgrp, HASHSIZE, le32, hi]

/-- Claim C1.  A channel made by `lc_channel_nnew` or `lc_channel_new` from the name `n`
is created in every context, and its group address has 16 bytes, starts with `ff 1e`, and
has in each position 2..15 the byte of the base `ff1e::` XORed with the byte of the hash of
`n` followed by the four bytes of the flags value 0.  Two channels made from the same name
in two contexts (any globals, any content of the contexts, any allocation address, either
constructor) have the same group address.  The new channel is the head of the context's
channel list. -/
theorem lc_channel_new_group (cfg : lc_config) (g1 g2 : lc_globals) (ctx1 ctx2 : lc_ctx_t)
    (p1 p2 : Nat) (n : List Nat) :
    ∃ a b c d,
      lc_channel_nnew cfg g1 ctx1 p1 n = some a ∧ lc_channel_new cfg g1 ctx1 p1 n = some b ∧
      lc_channel_nnew cfg g2 ctx2 p2 n = some c ∧ lc_channel_new cfg g2 ctx2 p2 n = some d ∧
      a.2.2.sa.sin6_addr.length = 16 ∧
      a.2.2.sa.sin6_addr.getD 0 0 = 0xff ∧ a.2.2.sa.sin6_addr.getD 1 0 = 0x1e ∧
      (∀ i : Fin 14, a.2.2.sa.sin6_addr.getD (i + 2) 0 =
        ([0xff, 0x1e, 0, 0, 0, 0, 0, 0, 0, 0, 0, 0, 0, 0, 0, 0].getD (i + 2) 0) ^^^
          ((cfg.hash (n ++ [0, 0, 0, 0])).getD (i + 2) 0 % 256)) ∧
      b.2.2.sa.sin6_addr = a.2.2.sa.sin6_addr ∧
      c.2.2.sa.sin6_addr = a.2.2.sa.sin6_addr ∧
      d.2.2.sa.sin6_addr = a.2.2.sa.sin6_addr ∧
      a.2.1.chan_list.head? = some a.2.2 ∧ b.2.1.chan_list.head? = some b.2.2 := by
  refine ⟨_, _, _, _, rfl, rfl, rfl, rfl, ?_⟩
  simp only [lc_channel_nnew, lc_hashgroup, DEFAULT_ADDR, lc_channel_init, lc_channel_ins,
    lc_channel_setid, calloc_channel, xor_from2_default]
  refine ⟨by simp, by simp, by simp, ?_, by simp, by simp, by simp, by simp, by simp⟩
  intro i
  have h := fun k hk => hashgrp_getD cfg n k hk
  fin_cases i <;> simp [h]

/-- Decoding the big-endian bytes of a value gives the value back, reduced to 64 bits. -/
theorem be64toh_be64 (x : Nat) : be64toh (be64 x) = x % 2 ^ 64 := by
  simp only [be64, be64toh, List.getD_cons_zero, List.getD_cons_succ]
  norm_num
  omega

/-- The packed header has 33 bytes. -/
theorem head_bytes_length (t s r op len : Nat) : (head_bytes t s r op len).length = 33 := by
  simp [head_bytes, be64]

/-- Decoding a buffer that starts with a packed header recovers the five fields. -/
theorem decode_head_head_bytes (t s r op len : Nat) (rest : List Nat) (msg : lc_message_t) :
    decode_head (head_bytes t s r op len ++ rest) msg =
      { msg with seq := s % 2 ^ 64, rnd := r % 2 ^ 64, len := len % 2 ^ 64,
                 timestamp := t % 2 ^ 64, op := op % 256 } := by
  have h1 : (head_bytes t s r op len ++ rest).take 8 = be64 t := by simp [head_bytes, be64]
  have h2 : ((head_bytes t s r op len ++ rest).drop 8).take 8 = be64 s := by
    simp [head_bytes, be64]
  have h3 : ((head_bytes t s r op len ++ rest).drop 16).take 8 = be64 r := by
    simp [head_bytes, be64]
  have h4 : ((head_bytes t s r op len ++ rest).drop 25).take 8 = be64 len := by
    simp [head_bytes, be64]
  have h5 : (head_bytes t s r op len ++ rest).getD 24 0 = op % 256 := by
    simp [head_bytes, be64]
  simp only [decode_head, h1, h2, h3, h4, h5, be64toh_be64]
  simp

/-- Receiving a datagram that consists of a packed header followed by `b`, where the header's
length field holds the length of `b`: the call returns the datagram size and the message
carries the decoded fields and the payload. -/
theorem lc_msg_recv_frame (cfg : lc_config) (sock : lc_socket_t) (t s r op : Nat)
    (b : List Nat) (src : in6_addr) (pk : Option in6_addr) (q : List rx_event)
    (m0 : lc_message_t) (buf0 : List Nat)
    (hj : ∀ dst, pk = some dst → cfg.softfilter = true → lc_socket_group_joined sock dst = 1) :
    ∃ rr, lc_msg_recv cfg sock (.dgram ⟨head_bytes t s r op b.length ++ b, src, pk⟩ :: q) m0 buf0
        = some rr ∧
      rr.ret = 33 + b.length ∧ rr.queue = q ∧ rr.msg.op = op % 256 ∧
      rr.msg.len = b.length % 2 ^ 64 ∧ rr.msg.seq = s % 2 ^ 64 ∧
      rr.msg.timestamp = t % 2 ^ 64 ∧ rr.msg.rnd = r % 2 ^ 64 ∧
      (rr.msg.data.getD []).take b.length = b ∧ (b ≠ [] → rr.msg.data = some b) ∧
      (∀ dst, pk = some dst → rr.msg.dst = dst) := by
  have hl := head_bytes_length t s r op b.length
  have htake : (head_bytes t s r op b.length ++ b).take HEAD_SIZE
      = head_bytes t s r op b.length := by
    simp [HEAD_SIZE, List.take_append_eq_append_take, hl]
  have hdrop : (head_bytes t s r op b.length ++ b).drop HEAD_SIZE = b := by
    simp [HEAD_SIZE, List.drop_append_eq_append_drop, hl]
  rw [lc_msg_recv]
  simp only [htake, hdrop, hl, List.length_append]
  by_cases hb : b = []
  · subst hb
    simp only [List.length_nil, HEAD_SIZE, lt_irrefl, if_false, List.take_nil, List.drop_zero,
      Nat.add_zero, decode_head_head_bytes]
    cases pk with
    | none => simp
    | some dst =>
      have := hj dst rfl
      by_cases hs : cfg.softfilter = true
      · simp [hs, this hs]
      · simp [hs]
  · have hpos : 0 < b.length := List.length_pos.mpr hb
    have hlt : HEAD_SIZE < 33 + b.length := by simp [HEAD_SIZE]; omega
    rw [if_pos hlt]
    have hsub : 33 + b.length - HEAD_SIZE = b.length := by simp [HEAD_SIZE]
    simp only [hsub, lc_msg_init_size, List.take_length, decode_head_head_bytes]
    have hnot : ¬ ((33 : Int) + (b.length : Int) ≤ 0) := by omega
    cases pk with
    | none => simp [hb, hnot]
    | some dst =>
      have := hj dst rfl
      by_cases hs : cfg.softfilter = true
      · simp [hs, this hs, hb, hnot]
      · simp [hs, hb, hnot]

/-- Claim C2, counterexample.  A channel whose sequence is `2 ^ 64 - 1` sends one byte: the
pre-increment wraps, the datagram carries sequence 0 and the receiver decodes sequence 0,
which is neither `s + 1` nor greater than the sender's previous sequence `s`.  Likewise an
opcode that does not fit the 8-bit header field (256) is decoded as 0. -/
theorem lc_msg_roundtrip_counterexample :
    ((lc_msg_send ex_os { ex_chan with seq := 2 ^ 64 - 1 } ex_msg).bind (fun r =>
      r.wire.bind (fun w =>
        (lc_msg_recv ex_cfg ex_sock [.dgram ⟨w.2.2, ex_src, some ex_A⟩] lc_msg_init []).map
          (fun rr => rr.msg.seq)))) = some 0 ∧
    ((lc_msg_send ex_os ex_chan { ex_msg with op := 256 }).bind (fun r =>
      r.wire.bind (fun w =>
        (lc_msg_recv ex_cfg ex_sock [.dgram ⟨w.2.2, ex_src, some ex_A⟩] lc_msg_init []).map
          (fun rr => rr.msg.op)))) = some 0 := by
  decide

/-- Claim C2, amended.  Let `b` be the payload of `msg` (the first `msg.len` bytes of its
buffer), let the opcode fit the 8-bit header field, the caller timestamp be non-zero, and
let the channel, bound to a socket, have a sequence `s` with `s + 1 < 2 ^ 64`.  Then
`lc_msg_send` calls `sendto` once, on the channel's socket and address, with the buffer made
of the packed 33-byte big-endian header followed by `b`, and `lc_msg_recv` decodes that
datagram (on a build with the software join set: when its destination is joined) into a
message with the same opcode, `len = |b|`, payload `b`, the same timestamp and
`seq = s + 1 > s`. -/
theorem lc_msg_send_recv_roundtrip (cfg : lc_config) (sock : lc_socket_t) (os : send_os)
    (chan : lc_channel_t) (msg : lc_message_t) (sp : Nat) (b : List Nat) (src : in6_addr)
    (pk : Option in6_addr) (q : List rx_event) (m0 : lc_message_t) (buf0 : List Nat)
    (hsock : chan.sock = some sp)
    (hdata : (msg.data.getD []).take msg.len = b) (hlen : msg.len = b.length)
    (hb : b.length < 2 ^ 64) (hop : msg.op < 256)
    (ht0 : msg.timestamp ≠ 0) (ht : msg.timestamp < 2 ^ 64)
    (hs : chan.seq + 1 < 2 ^ 64)
    (hj : ∀ dst, pk = some dst → cfg.softfilter = true → lc_socket_group_joined sock dst = 1) :
    ∃ r buf rr,
      lc_msg_send os chan msg = some r ∧ r.ret = .ok os.sendto ∧
      r.wire = some (sp, chan.sa, buf) ∧ r.chan.seq = chan.seq + 1 ∧
      buf = be64 msg.timestamp ++ be64 (chan.seq + 1) ++ be64 os.rnd ++ [msg.op]
              ++ be64 b.length ++ b ∧
      buf.length = 33 + b.length ∧
      lc_msg_recv cfg sock (.dgram ⟨buf, src, pk⟩ :: q) m0 buf0 = some rr ∧
      rr.ret = 33 + b.length ∧
      rr.msg.op = msg.op ∧ rr.msg.len = b.length ∧
      (rr.msg.data.getD []).take rr.msg.len = b ∧
      rr.msg.timestamp = msg.timestamp ∧ rr.msg.seq = chan.seq + 1 ∧
      chan.seq < rr.msg.seq := by
  obtain ⟨rr, h1, h2, _, h4, h5, h6, h7, _, h9, _, _⟩ :=
    lc_msg_recv_frame cfg sock msg.timestamp (chan.seq + 1) os.rnd msg.op b src pk q m0 buf0 hj
  have hdl : ¬ (msg.data.getD []).length < msg.len := by
    have := congrArg List.length hdata
    rw [List.length_take] at this
    omega
  have hne : ¬ (0 < msg.len ∧ msg.data = none) := by
    rintro ⟨hp, hn⟩
    rw [hn] at hdl
    simp at hdl
    omega
  have hsend : lc_msg_send os chan msg
      = some ⟨.ok os.sendto, { chan with seq := chan.seq + 1 },
          some (sp, chan.sa, head_bytes msg.timestamp (chan.seq + 1) os.rnd msg.op b.length ++ b)⟩ := by
    simp only [lc_msg_send, hsock, hne, if_false, hdl, ht0, ne_eq, not_false_eq_true, if_true,
      Nat.mod_eq_of_lt hs, hdata]
    rw [hlen]
  refine ⟨_, _, rr, hsend, rfl, rfl, rfl, ?_, ?_, h1, h2, ?_, ?_, ?_, ?_, ?_, ?_⟩
  · simp [head_bytes, Nat.mod_eq_of_lt hop]
  · simp [head_bytes_length]
  · rw [h4, Nat.mod_eq_of_lt hop]
  · rw [h5, Nat.mod_eq_of_lt hb]
  · rw [h5, Nat.mod_eq_of_lt hb]; exact h9
  · rw [h7, Nat.mod_eq_of_lt ht]
  · rw [h6, Nat.mod_eq_of_lt hs]
  · rw [h6, Nat.mod_eq_of_lt hs]; omega

/-- Claim C2, witness: the amended round trip at a one-byte DATA message on a channel with
sequence 7. -/
theorem lc_msg_send_recv_roundtrip_witness :
    ∃ r buf rr,
      lc_msg_send ex_os ex_chan ex_msg = some r ∧ r.ret = .ok ex_os.sendto ∧
      r.wire = some (100, ex_chan.sa, buf) ∧ r.chan.seq = ex_chan.seq + 1 ∧
      buf = be64 ex_msg.timestamp ++ be64 (ex_chan.seq + 1) ++ be64 ex_os.rnd ++ [ex_msg.op]
              ++ be64 [120].length ++ [120] ∧
      buf.length = 33 + [120].length ∧
      lc_msg_recv ex_cfg ex_sock (.dgram ⟨buf, ex_src, some ex_A⟩ :: []) lc_msg_init [] = some rr ∧
      rr.ret = 33 + [120].length ∧
      rr.msg.op = ex_msg.op ∧ rr.msg.len = [120].length ∧
      (rr.msg.data.getD []).take rr.msg.len = [120] ∧
      rr.msg.timestamp = ex_msg.timestamp ∧ rr.msg.seq = ex_chan.seq + 1 ∧
      ex_chan.seq < rr.msg.seq :=
  lc_msg_send_recv_roundtrip ex_cfg ex_sock ex_os ex_chan ex_msg 100 [120] ex_src (some ex_A)
    [] lc_msg_init [] rfl (by decide) (by decide) (by decide) (by decide) (by decide)
    (by decide) (by decide) (by intro dst h _; cases h; decide)

/-- Reading back through a pointer that was stored to. -/
theorem chan_at_chan_store (ctx : lc_ctx_t) (c : lc_channel_t)
    (h : ∃ x ∈ ctx.chan_list, x.ptr = c.ptr) : chan_at (chan_store ctx c) c.ptr = some c := by
  simp only [chan_at, chan_store]
  generalize ctx.chan_list = l at h
  induction l with
  | nil => simp at h
  | cons x l ih =>
    by_cases hp : x.ptr = c.ptr
    · simp [List.find?_cons, hp]
    · obtain ⟨y, hy, hyp⟩ := h
      have hy1 : y ∈ l := by
        rcases List.mem_cons.mp hy with rfl | h1
        · exact absurd hyp hp
        · exact h1
      simp only [List.map_cons, hp, if_false, List.find?_cons, decide_False]
      exact ih ⟨y, hy1, hyp⟩

/-- Two stores through the same pointer: the second wins. -/
theorem chan_store_chan_store (ctx : lc_ctx_t) (c d : lc_channel_t) (h : c.ptr = d.ptr) :
    chan_store (chan_store ctx c) d = chan_store ctx d := by
  simp only [chan_store, List.map_map]
  congr 1
  apply List.map_congr_left
  intro x _
  by_cases hp : x.ptr = c.ptr
  · simp [hp, h]
  · have : ¬ x.ptr = d.ptr := by rw [← h]; exact hp
    simp [hp, this]

/-- Function `lc_msg_send` does not move the channel. -/
theorem lc_msg_send_ptr (os : send_os) (chan : lc_channel_t) (msg : lc_message_t)
    (r : send_result) (h : lc_msg_send os chan msg = some r) :
    r.chan.ptr = chan.ptr ∧ r.chan.sa = chan.sa ∧ r.chan.sock = chan.sock ∧
      (r.chan.seq = chan.seq ∨ r.chan.seq = (chan.seq + 1) % 2 ^ 64) := by
  unfold lc_msg_send at h
  cases hs : chan.sock with
  | none =>
    simp only [hs] at h
    cases h
    simp [hs]
  | some s =>
    simp only [hs] at h
    by_cases h1 : 0 < msg.len ∧ msg.data = none
    · rw [if_pos h1] at h
      cases h
      simp [hs]
    · rw [if_neg h1] at h
      by_cases h2 : (msg.data.getD []).length < msg.len
      · simp only [h2, if_true] at h
        cases h
      · simp only [h2, if_false] at h
        cases h
        simp [hs]

/-- What `process_msg` does when the destination resolves to `chan` and the opcode is not
a dispatched PING: the channel takes the larger of the two sequences plus one (64-bit) and the nonce of
the message; the events are the logger call, the callback of the opcode handler and the
final callback. -/
theorem process_msg_found (cfg : lc_config) (os : send_os) (ctx : lc_ctx_t)
    (sock : lc_socket_t) (sc : lc_socket_call_t) (msg : lc_message_t) (chan : lc_channel_t)
    (hfind : lc_channel_by_address ctx msg.dst = some chan)
    (hop : msg.op = LC_OP_PING → cfg.LC_OP_MAX ≤ LC_OP_PING) :
    process_msg cfg os ctx sock sc msg =
      some (chan_store ctx { chan with
              seq := if chan.seq < msg.seq then (msg.seq + 1) % 2 ^ 64
                     else (chan.seq + 1) % 2 ^ 64,
              rnd := msg.rnd },
            { msg with dstaddr := msg.dst, srcaddr := msg.src, sockid := sock.id,
                       chan := some chan.ptr },
            (if cfg.logger then
               [lc_event.msg_logger chan.ptr
                 { msg with dstaddr := msg.dst, srcaddr := msg.src, sockid := sock.id,
                            chan := some chan.ptr }]
             else []) ++
            (if msg.op < cfg.LC_OP_MAX ∧ (msg.op = LC_OP_DATA ∨ msg.op = LC_OP_PONG)
                ∧ sc.callback_msg = true then
               [lc_event.callback_msg
                 { msg with dstaddr := msg.dst, srcaddr := msg.src, sockid := sock.id,
                            chan := some chan.ptr }]
             else []) ++
            (if sc.callback_msg then
               [lc_event.callback_msg
                 { msg with dstaddr := msg.dst, srcaddr := msg.src, sockid := sock.id,
                            chan := some chan.ptr }]
             else [])) := by
  simp only [process_msg, hfind, lc_op_data_handler, lc_op_pong_handler]
  by_cases hmax : msg.op < cfg.LC_OP_MAX
  · by_cases h0 : msg.op = LC_OP_DATA
    · have hm := hmax
      rw [h0] at hm
      simp [hm, h0]
    · by_cases h2 : msg.op = LC_OP_PONG
      · have hm : 2 < cfg.LC_OP_MAX := by
          have := hmax
          rw [h2] at this
          exact this
        simp [hm, h2, LC_OP_PONG, LC_OP_DATA, LC_OP_PING]
      · have h1 : ¬ msg.op = LC_OP_PING := fun h => absurd hmax (by rw [h]; exact not_lt.mpr (hop h))
        simp [hmax, h0, h2, h1]
  · simp [hmax]

/-- What `process_msg` does when the destination resolves to `chan` and the opcode is PING:
after the channel update the message, rewritten to PONG, is sent on that channel. -/
theorem process_msg_found_ping (cfg : lc_config) (os : send_os) (ctx : lc_ctx_t)
    (sock : lc_socket_t) (sc : lc_socket_call_t) (msg : lc_message_t) (chan : lc_channel_t)
    (hfind : lc_channel_by_address ctx msg.dst = some chan) (hop : msg.op = LC_OP_PING)
    (hmax : LC_OP_PING < cfg.LC_OP_MAX) :
    process_msg cfg os ctx sock sc msg =
      (lc_msg_send os
          { chan with
              seq := if chan.seq < msg.seq then (msg.seq + 1) % 2 ^ 64
                     else (chan.seq + 1) % 2 ^ 64,
              rnd := msg.rnd }
          { msg with dstaddr := msg.dst, srcaddr := msg.src, sockid := sock.id,
                     chan := some chan.ptr, op := LC_OP_PONG }).map
        (fun r =>
          (chan_store ctx r.chan,
           { msg with dstaddr := msg.dst, srcaddr := msg.src, sockid := sock.id,
                      chan := some chan.ptr, op := LC_OP_PONG },
           (if cfg.logger then
              [lc_event.msg_logger chan.ptr
                { msg with dstaddr := msg.dst, srcaddr := msg.src, sockid := sock.id,
                           chan := some chan.ptr }]
            else []) ++
           (match r.wire with
            | some (s, sa, buf) => [lc_event.sendto s sa buf]
            | none => []) ++
           (if sc.callback_msg then
              [lc_event.callback_msg
                { msg with dstaddr := msg.dst, srcaddr := msg.src, sockid := sock.id,
                           chan := some chan.ptr, op := LC_OP_PONG }]
            else []))) := by
  have hmem : chan ∈ ctx.chan_list := List.mem_of_find?_eq_some hfind
  have hm1 : 1 < cfg.LC_OP_MAX := hmax
  have hat := chan_at_chan_store ctx
    { chan with
        seq := if chan.seq < msg.seq then (msg.seq + 1) % 2 ^ 64 else (chan.seq + 1) % 2 ^ 64,
        rnd := msg.rnd } ⟨chan, hmem, rfl⟩
  simp only [process_msg, hfind, hop, LC_OP_PING, LC_OP_DATA, LC_OP_PONG, hm1, if_true,
    one_ne_zero, if_false, lc_op_ping_handler, lc_msg_set_opcode] at hat ⊢
  simp only [hat]
  generalize hs : lc_msg_send _ _ _ = o
  cases o with
  | none => simp
  | some r =>
    have hp := (lc_msg_send_ptr _ _ _ _ hs).1
    simp only [Option.map_some']
    rw [chan_store_chan_store _ _ _ hp.symm]

/-- Claim C3, counterexample.  The channel for `ff1e::1` holds sequence 7 and a DATA message
for that group arrives with sequence `2 ^ 64 - 1`: `msg->seq + 1` wraps and the channel is
left with sequence 0, which is greater than neither 7 nor `2 ^ 64 - 1`. -/
theorem process_msg_lamport_counterexample :
    (process_msg ex_cfg ex_os ex_ctx ex_sock ⟨100, true, true⟩
        { ex_msg with dst := ex_A, seq := 2 ^ 64 - 1 }).bind
      (fun r => (lc_channel_by_address r.1 ex_A).map (fun c => c.seq)) = some 0 ∧
    (lc_channel_by_address ex_ctx ex_A).map (fun c => c.seq) = some 7 := by
  decide

/-- A send on a bound channel whose message length lies within the payload buffer. -/
theorem lc_msg_send_ok (os : send_os) (chan : lc_channel_t) (msg : lc_message_t) (sp : Nat)
    (hsock : chan.sock = some sp) (hin : msg.len ≤ (msg.data.getD []).length) :
    lc_msg_send os chan msg =
      some ⟨.ok os.sendto, { chan with seq := (chan.seq + 1) % 2 ^ 64 },
        some (sp, chan.sa,
          head_bytes
            (if msg.timestamp ≠ 0 then msg.timestamp
             else match os.clock with
               | some t => t % 2 ^ 64
               | none => 0)
            ((chan.seq + 1) % 2 ^ 64) os.rnd msg.op msg.len
          ++ (msg.data.getD []).take msg.len)⟩ := by
  have hne : ¬ (0 < msg.len ∧ msg.data = none) := by
    rintro ⟨hp, hn⟩
    rw [hn] at hin
    simp at hin
    omega
  simp only [lc_msg_send, hsock, hne, if_false, not_lt.mpr hin]

/-- Claim C3, amended.  When the destination of the message resolves to a channel with
stored sequence `s`, the message carries sequence `m`, and the 64-bit counter does not wrap,
`process_msg` returns and leaves that channel with a sequence strictly greater than both `s`
and `m`.  No wrap means `max s m + 1 < 2 ^ 64`, and `max s m + 2 < 2 ^ 64` when a PONG reply
is sent (a dispatched PING on a channel bound to a socket, unless the message has a length
and no payload buffer), since the reply advances the sequence once more.  The one case left
out is a PONG reply whose copy of `msg.len` bytes exceeds the payload buffer: that read is
out of bounds. -/
theorem process_msg_lamport (cfg : lc_config) (os : send_os) (ctx : lc_ctx_t)
    (sock : lc_socket_t) (sc : lc_socket_call_t) (msg : lc_message_t) (chan : lc_channel_t)
    (hfind : lc_channel_by_address ctx msg.dst = some chan)
    (hw : max chan.seq msg.seq + 1 < 2 ^ 64)
    (hw2 : msg.op = LC_OP_PING → LC_OP_PING < cfg.LC_OP_MAX → chan.sock ≠ none →
      ¬ (0 < msg.len ∧ msg.data = none) → max chan.seq msg.seq + 2 < 2 ^ 64)
    (hin : msg.op = LC_OP_PING → LC_OP_PING < cfg.LC_OP_MAX → chan.sock ≠ none →
      ∀ d, msg.data = some d → msg.len ≤ d.length) :
    ∃ ctx1 msg1 ev chan1,
      process_msg cfg os ctx sock sc msg = some (ctx1, msg1, ev) ∧
      msg1.chan = some chan.ptr ∧
      chan_at ctx1 chan.ptr = some chan1 ∧
      chan.seq < chan1.seq ∧ msg.seq < chan1.seq ∧
      (chan1.seq = max chan.seq msg.seq + 1 ∨ chan1.seq = max chan.seq msg.seq + 2) := by
  have hmem : chan ∈ ctx.chan_list := List.mem_of_find?_eq_some hfind
  have hseq : (if chan.seq < msg.seq then (msg.seq + 1) % 2 ^ 64 else (chan.seq + 1) % 2 ^ 64)
      = max chan.seq msg.seq + 1 := by
    by_cases h : chan.seq < msg.seq
    · rw [if_pos h, max_eq_right (le_of_lt h), Nat.mod_eq_of_lt]
      rwa [max_eq_right (le_of_lt h)] at hw
    · rw [if_neg h, max_eq_left (not_lt.mp h), Nat.mod_eq_of_lt]
      rwa [max_eq_left (not_lt.mp h)] at hw
  have hle1 : chan.seq ≤ max chan.seq msg.seq := le_max_left _ _
  have hle2 : msg.seq ≤ max chan.seq msg.seq := le_max_right _ _
  have hone : ∃ ctx1 chan1,
      ctx1 = chan_store ctx { chan with seq := max chan.seq msg.seq + 1, rnd := msg.rnd } ∧
      chan_at ctx1 chan.ptr = some chan1 ∧
      chan.seq < chan1.seq ∧ msg.seq < chan1.seq ∧
      (chan1.seq = max chan.seq msg.seq + 1 ∨ chan1.seq = max chan.seq msg.seq + 2) := by
    refine ⟨_, { chan with seq := max chan.seq msg.seq + 1, rnd := msg.rnd }, rfl, ?_, ?_, ?_,
      Or.inl rfl⟩
    · exact chan_at_chan_store ctx
        { chan with seq := max chan.seq msg.seq + 1, rnd := msg.rnd } ⟨chan, hmem, rfl⟩
    · show chan.seq < max chan.seq msg.seq + 1
      omega
    · show msg.seq < max chan.seq msg.seq + 1
      omega
  obtain ⟨ctxa, chana, hctxa, ha1, ha2, ha3, ha4⟩ := hone
  by_cases hping : msg.op = LC_OP_PING ∧ LC_OP_PING < cfg.LC_OP_MAX
  · obtain ⟨hop, hmax⟩ := hping
    rw [process_msg_found_ping cfg os ctx sock sc msg chan hfind hop hmax, hseq]
    rcases Option.eq_none_or_eq_some chan.sock with hs | ⟨s, hs⟩
    · have hsend : lc_msg_send os { chan with seq := max chan.seq msg.seq + 1, rnd := msg.rnd }
          { msg with dstaddr := msg.dst, srcaddr := msg.src, sockid := sock.id,
                     chan := some chan.ptr, op := LC_OP_PONG } =
          some ⟨.error .LC_ERROR_SOCKET_REQUIRED,
            { chan with seq := max chan.seq msg.seq + 1, rnd := msg.rnd }, none⟩ := by
        simp only [lc_msg_send, hs]
      rw [hsend]
      simp only [Option.map_some']
      exact ⟨_, _, _, chana, rfl, rfl, by rw [← hctxa]; exact ha1, ha2, ha3, ha4⟩
    · have hbound : chan.sock ≠ none := by rw [hs]; simp
      by_cases h1 : 0 < msg.len ∧ msg.data = none
      · have hsend : lc_msg_send os
            { chan with seq := max chan.seq msg.seq + 1, rnd := msg.rnd }
            { msg with dstaddr := msg.dst, srcaddr := msg.src, sockid := sock.id,
                       chan := some chan.ptr, op := LC_OP_PONG } =
            some ⟨.error .LC_ERROR_MESSAGE_EMPTY,
              { chan with seq := max chan.seq msg.seq + 1, rnd := msg.rnd }, none⟩ := by
          simp only [lc_msg_send, hs, h1, and_self, if_true]
        rw [hsend]
        simp only [Option.map_some']
        exact ⟨_, _, _, chana, rfl, rfl, by rw [← hctxa]; exact ha1, ha2, ha3, ha4⟩
      · have hw3 := hw2 hop hmax hbound h1
        have hlen : msg.len ≤ (msg.data.getD []).length := by
          cases hd : msg.data with
          | none =>
            have : ¬ 0 < msg.len := fun hp => h1 ⟨hp, hd⟩
            simp only [Option.getD_none, List.length_nil]
            omega
          | some d =>
            simp only [Option.getD_some]
            exact hin hop hmax hbound d hd
        have hsend := lc_msg_send_ok os
          { chan with seq := max chan.seq msg.seq + 1, rnd := msg.rnd }
          { msg with dstaddr := msg.dst, srcaddr := msg.src, sockid := sock.id,
                     chan := some chan.ptr, op := LC_OP_PONG } s hs hlen
        have hmod : (max chan.seq msg.seq + 1 + 1) % 2 ^ 64 = max chan.seq msg.seq + 2 :=
          Nat.mod_eq_of_lt (by omega)
        rw [hsend]
        simp only [Option.map_some', hmod]
        refine ⟨_, _, _, { chan with seq := max chan.seq msg.seq + 2, rnd := msg.rnd },
          rfl, rfl, ?_, ?_, ?_, Or.inr rfl⟩
        · exact chan_at_chan_store ctx
            { chan with seq := max chan.seq msg.seq + 2, rnd := msg.rnd } ⟨chan, hmem, rfl⟩
        · show chan.seq < max chan.seq msg.seq + 2
          omega
        · show msg.seq < max chan.seq msg.seq + 2
          omega
  · have hop : msg.op = LC_OP_PING → cfg.LC_OP_MAX ≤ LC_OP_PING := fun h =>
      not_lt.mp (fun hlt => hping ⟨h, hlt⟩)
    rw [process_msg_found cfg os ctx sock sc msg chan hfind hop, hseq]
    exact ⟨_, _, _, chana, rfl, rfl, by rw [← hctxa]; exact ha1, ha2, ha3, ha4⟩

/-- Claim C3, witness: a PING with sequence 3 and a one-byte payload for a bound channel with
sequence 7; the channel takes `max 7 3 + 1` and the PONG reply advances it once more. -/
theorem process_msg_lamport_witness :
    ∃ ctx1 msg1 ev chan1,
      process_msg ex_cfg ex_os ex_ctx ex_sock ⟨100, true, true⟩
          { ex_msg with dst := ex_A, seq := 3, op := LC_OP_PING } = some (ctx1, msg1, ev) ∧
      msg1.chan = some ex_chan.ptr ∧
      chan_at ctx1 ex_chan.ptr = some chan1 ∧
      ex_chan.seq < chan1.seq ∧ 3 < chan1.seq ∧
      (chan1.seq = max ex_chan.seq 3 + 1 ∨ chan1.seq = max ex_chan.seq 3 + 2) :=
  process_msg_lamport ex_cfg ex_os ex_ctx ex_sock ⟨100, true, true⟩
    { ex_msg with dst := ex_A, seq := 3, op := LC_OP_PING } ex_chan
    (by decide) (by decide) (fun _ _ _ _ => by decide)
    (fun _ _ _ d hd => by cases hd; decide)

/-- Claim C4, counterexample.  One DATA datagram with the one-byte payload `x` arrives for a
joined channel and a user message callback is installed: the listener turn calls the
callback twice with the same message, once from `lc_op_data_handler` and once more at the
end of `process_msg`, not exactly once. -/
theorem lc_socket_listen_thread_step_data_twice :
    (lc_socket_listen_thread_step ex_cfg ex_os ex_ctx ⟨100, true, true⟩ lc_msg_init
        [.dgram ⟨head_bytes 1000 1 77 LC_OP_DATA 1 ++ [120], ex_src, some ex_A⟩] []).map
      (fun r => r.2.2.2) =
      some [lc_event.callback_msg ex_delivered, lc_event.callback_msg ex_delivered] := by
  decide

/-- The reply to a PING: for a message with opcode PING whose destination resolves to a
bound channel and whose first `len` payload bytes are `p`, `process_msg` calls `sendto`
exactly once, with a PONG header followed by `p`. -/
theorem process_msg_ping_reply (cfg : lc_config) (os : send_os) (ctx : lc_ctx_t)
    (sock : lc_socket_t) (sc : lc_socket_call_t) (mx : lc_message_t) (chan : lc_channel_t)
    (sp : Nat) (p : List Nat)
    (hmax : LC_OP_PING < cfg.LC_OP_MAX)
    (hfind : lc_channel_by_address ctx mx.dst = some chan)
    (hbound : chan.sock = some sp)
    (hop : mx.op = LC_OP_PING) (hlen : mx.len = p.length)
    (hdata : (mx.data.getD []).take p.length = p) (hp : p.length < 2 ^ 64) :
    ∃ ctx1 msg1 ev buf,
      process_msg cfg os ctx sock sc mx = some (ctx1, msg1, ev) ∧
      ev.filter is_sendto = [lc_event.sendto sp chan.sa buf] ∧
      buf.length = 33 + p.length ∧
      buf.getD 24 0 = LC_OP_PONG ∧
      be64toh ((buf.drop 25).take 8) = p.length ∧
      buf.drop 33 = p := by
  have hin : mx.len ≤ (mx.data.getD []).length := by
    have := congrArg List.length hdata
    rw [List.length_take] at this
    omega
  have hs := lc_msg_send_ok os
    { chan with
        seq := if chan.seq < mx.seq then (mx.seq + 1) % 2 ^ 64 else (chan.seq + 1) % 2 ^ 64,
        rnd := mx.rnd }
    { mx with dstaddr := mx.dst, srcaddr := mx.src, sockid := sock.id,
              chan := some chan.ptr, op := LC_OP_PONG } sp hbound hin
  obtain ⟨T, S, hs1⟩ : ∃ T S, lc_msg_send os
      { chan with
          seq := if chan.seq < mx.seq then (mx.seq + 1) % 2 ^ 64 else (chan.seq + 1) % 2 ^ 64,
          rnd := mx.rnd }
      { mx with dstaddr := mx.dst, srcaddr := mx.src, sockid := sock.id,
                chan := some chan.ptr, op := LC_OP_PONG } =
      some ⟨.ok os.sendto, { chan with seq := S, rnd := mx.rnd },
        some (sp, chan.sa,
          head_bytes T S os.rnd LC_OP_PONG mx.len ++ (mx.data.getD []).take mx.len)⟩ :=
    ⟨_, _, hs⟩
  rw [process_msg_found_ping cfg os ctx sock sc mx chan hfind hop hmax, hs1]
  simp only [Option.map_some']
  refine ⟨_, _, _,
    head_bytes T S os.rnd LC_OP_PONG mx.len ++ (mx.data.getD []).take mx.len, rfl,
    ?_, ?_, ?_, ?_, ?_⟩
  · by_cases hl : cfg.logger = true <;> by_cases hc : sc.callback_msg = true <;>
      simp [hl, hc, is_sendto]
  · simp [head_bytes_length, hlen, hdata]
  · simp [head_bytes, be64, LC_OP_PONG]
  · have : ∀ (a b c d e : Nat) (rest : List Nat),
        ((head_bytes a b c d e ++ rest).drop 25).take 8 = be64 e := by
      intro a b c d e rest
      simp [head_bytes, be64]
    rw [this, be64toh_be64, hlen, Nat.mod_eq_of_lt hp]
  · have hl := head_bytes_length
    simp [hl, hlen, hdata]

/-- Claim C5, amended.  A PING datagram whose header length field holds the length of its
payload `p` arrives for the group `dst`; the socket has joined `dst` and `dst` resolves to a
channel bound to that socket.  Then `lc_msg_recv` followed by `process_msg` calls `sendto`
exactly once, on that socket and to the channel's own address, whose group is `dst`; the
buffer sent is a 33-byte header whose opcode byte is 2 (PONG) and whose length field is
`|p|`, followed by `p`. -/
theorem process_msg_ping_pong (cfg : lc_config) (os : send_os) (ctx : lc_ctx_t)
    (sock : lc_socket_t) (sc : lc_socket_call_t) (t s r : Nat) (p : List Nat)
    (src dst : in6_addr) (q : List rx_event) (m0 : lc_message_t) (buf0 : List Nat)
    (chan : lc_channel_t)
    (hmax : LC_OP_PING < cfg.LC_OP_MAX)
    (hfind : lc_channel_by_address ctx dst = some chan)
    (hbound : chan.sock = some sock.ptr)
    (hjoin : cfg.softfilter = true → lc_socket_group_joined sock dst = 1)
    (hp : p.length < 2 ^ 64) :
    ∃ rr ctx1 msg1 ev buf,
      lc_msg_recv cfg sock
          (.dgram ⟨head_bytes t s r LC_OP_PING p.length ++ p, src, some dst⟩ :: q) m0 buf0
        = some rr ∧
      0 < rr.ret ∧
      process_msg cfg os ctx sock sc { rr.msg with bytes := rr.ret } = some (ctx1, msg1, ev) ∧
      ev.filter is_sendto = [lc_event.sendto sock.ptr chan.sa buf] ∧
      chan.sa.sin6_addr = dst ∧
      buf.length = 33 + p.length ∧
      buf.getD 24 0 = LC_OP_PONG ∧
      be64toh ((buf.drop 25).take 8) = p.length ∧
      buf.drop 33 = p := by
  obtain ⟨rr, h1, h2, _, h4, h5, _, _, _, h9, _, h11⟩ :=
    lc_msg_recv_frame cfg sock t s r LC_OP_PING p src (some dst) q m0 buf0
      (fun d hd hs => by cases hd; exact hjoin hs)
  have hdst : rr.msg.dst = dst := h11 dst rfl
  have hop : rr.msg.op = LC_OP_PING := by rw [h4]; rfl
  have hlen : rr.msg.len = p.length := by rw [h5, Nat.mod_eq_of_lt hp]
  have hsa : chan.sa.sin6_addr = dst := by
    have := List.find?_some hfind
    simpa using this
  obtain ⟨ctx1, msg1, ev, buf, k1, k2, k3, k4, k5, k6⟩ :=
    process_msg_ping_reply cfg os ctx sock sc { rr.msg with bytes := rr.ret } chan sock.ptr p
      hmax (by rw [← hdst] at hfind; exact hfind) hbound hop hlen h9 hp
  exact ⟨rr, ctx1, msg1, ev, buf, h1, by rw [h2]; omega, k1, k2, hsa, k3, k4, k5, k6⟩

/-- Claim C5, witness: a PING with the one-byte payload `p` for the joined channel of the
example context. -/
theorem process_msg_ping_pong_witness :
    ∃ rr ctx1 msg1 ev buf,
      lc_msg_recv ex_cfg ex_sock
          (.dgram ⟨head_bytes 1000 1 77 LC_OP_PING [112].length ++ [112], ex_src, some ex_A⟩
            :: []) lc_msg_init []
        = some rr ∧
      0 < rr.ret ∧
      process_msg ex_cfg ex_os ex_ctx ex_sock ⟨100, true, true⟩ { rr.msg with bytes := rr.ret }
        = some (ctx1, msg1, ev) ∧
      ev.filter is_sendto = [lc_event.sendto ex_sock.ptr ex_chan.sa buf] ∧
      ex_chan.sa.sin6_addr = ex_A ∧
      buf.length = 33 + [112].length ∧
      buf.getD 24 0 = LC_OP_PONG ∧
      be64toh ((buf.drop 25).take 8) = [112].length ∧
      buf.drop 33 = [112] :=
  process_msg_ping_pong ex_cfg ex_os ex_ctx ex_sock ⟨100, true, true⟩ 1000 1 77 [112] ex_src
    ex_A [] lc_msg_init [] ex_chan (by decide) (by decide) (by decide) (by decide) (by decide)

/-- Claim C7, the code at the failing input.  After `lc_ctx_new`, `lc_socket_new`,
`lc_channel_new`, `lc_channel_bind` and `lc_channel_free` of that channel the socket's
`bound` counter is 1 while no channel points to the socket: `lc_channel_free` unlinks the
channel without the decrement `lc_channel_unbind` makes.  Binding one channel twice leaves
the counter at 2 with one channel pointing to the socket. -/
theorem lc_channel_free_keeps_bound :
    ex_bind_free.map bound_and_count = some [(1, 0)] ∧
    ex_bind_twice.map bound_and_count = some [(2, 1)] := by
  decide

/-- The unlink loop changes nothing when no node matches. -/
theorem unlink_walk_none {α : Type} (m : α → List α → Bool) (l : List α)
    (h : ∀ pre x rest, l = pre ++ x :: rest → m x rest = false) : unlink_walk m l = l := by
  induction l with
  | nil => rfl
  | cons n l ih =>
    cases l with
    | nil => rfl
    | cons x rest =>
      have hx : m x rest = false := h [n] x rest rfl
      have ih1 := ih (fun pre y r hy => h (n :: pre) y r (by rw [hy]; rfl))
      simp only [unlink_walk, hx, Bool.false_eq_true, if_false, ih1]

/-- The comparison of `lc_socket_group_del` fails on every node when the group is a
multicast address (first byte `ff`) and the node that follows lies at an even address, or
there is none: the first byte compared is the low byte of the `next` pointer. -/
theorem del_memcmp_multicast (grp : in6_addr) (g : lc_grplist_s) (rest : List lc_grplist_s)
    (hm : grp.head? = some 0xff) (ha : next_ptr rest % 2 = 0) :
    del_memcmp grp g rest = false := by
  simp only [del_memcmp, le64, List.cons_append, decide_eq_false_iff_not]
  intro h
  rw [← h] at hm
  simp only [List.head?_cons, Option.some.injEq] at hm
  omega

/-- Leaving a multicast group removes nothing from a join set whose nodes lie at even
addresses (every allocator aligns them): `lc_socket_group_del` returns, with the socket as
it was, whether or not the group is in the set. -/
theorem lc_socket_group_del_multicast (sock : lc_socket_t) (grp : in6_addr)
    (hm : grp.head? = some 0xff) (ha : ∀ g ∈ sock.grps, g.addr % 2 = 0) :
    lc_socket_group_del sock grp = some sock := by
  have hnext : ∀ l : List lc_grplist_s, (∀ g ∈ l, g.addr % 2 = 0) → next_ptr l % 2 = 0 := by
    intro l hl
    cases l with
    | nil => rfl
    | cons n _ => exact hl n (List.mem_cons_self _ _)
  have hloop : ∀ l : List lc_grplist_s, (∀ g ∈ l, g.addr % 2 = 0) →
      lc_socket_group_del_loop grp l = some () := by
    intro l
    induction l with
    | nil => intro _; rfl
    | cons g rest ih =>
      intro hl
      have h0 : del_memcmp grp g rest = false :=
        del_memcmp_multicast grp g rest hm
          (hnext rest (fun x hx => hl x (List.mem_cons_of_mem _ hx)))
      simp only [lc_socket_group_del_loop, h0, Bool.false_eq_true, if_false]
      exact ih (fun x hx => hl x (List.mem_cons_of_mem _ hx))
  simp only [lc_socket_group_del, hloop sock.grps ha]

/-- Claim C9, the code at the failing input.  Join `ff1e::1`, join `ff1e::2`, leave `ff1e::1`
on one socket: the leave returns, the join set still holds both groups and
`lc_socket_group_joined` still returns 1 for `ff1e::1`.  The comparison in
`lc_socket_group_del` reads the node (its `next` pointer and half of its address) instead
of the node's address field, so no node matches and nothing is removed. -/
theorem lc_channel_part_keeps_group :
    ex_join_join_part.bind (fun ctx => (sock_at ctx 100).map (fun s =>
      (lc_socket_group_joined s ex_A, lc_socket_group_joined s ex_B,
        s.grps.map (fun g => g.grp)))) = some (1, 1, [ex_A, ex_B]) := by
  decide

/-- Claim C8, the code at the failing input.  After join `ff1e::1`, join `ff1e::2`, leave
`ff1e::1`, a DATA datagram addressed to `ff1e::1` is not dropped: `lc_msg_recv` returns it
and the listener turn hands it to the user message callback. -/
theorem lc_msg_recv_after_part_delivers :
    ex_join_join_part.bind (fun ctx =>
      (lc_socket_listen_thread_step ex_cfg ex_os ctx ⟨100, true, true⟩ lc_msg_init
        [.dgram ⟨head_bytes 1000 1 77 LC_OP_DATA 1 ++ [120], ex_src, some ex_A⟩] []).map
      (fun r => (r.2.2.1, r.2.2.2))) =
      some ([], [lc_event.callback_msg ex_delivered, lc_event.callback_msg ex_delivered]) := by
  decide

/-- The join loop leaves a set that holds the group alone, and appends one node otherwise. -/
theorem lc_socket_group_add_loop_eq (a : Nat) (grp : in6_addr) (l : List lc_grplist_s) :
    lc_socket_group_add_loop a grp l =
      if grp ∈ l.map (fun g => g.grp) then l else l ++ [⟨a, grp⟩] := by
  induction l with
  | nil => simp [lc_socket_group_add_loop]
  | cons g rest ih =>
    by_cases h : g.grp = grp
    · simp [lc_socket_group_add_loop, h]
    · have h1 : ¬ grp = g.grp := fun e => h e.symm
      simp only [lc_socket_group_add_loop, h, if_false, ih, List.map_cons, List.mem_cons, h1,
        false_or]
      by_cases hm : grp ∈ rest.map (fun g => g.grp)
      · simp only [hm, if_true]
      · simp only [hm, if_false, List.cons_append]

/-- Function `lc_socket_group_joined` returns 1 exactly for the groups of the set. -/
theorem lc_socket_group_joined_loop_eq (grp : in6_addr) (l : List lc_grplist_s) :
    lc_socket_group_joined_loop grp l = if grp ∈ l.map (fun g => g.grp) then 1 else 0 := by
  induction l with
  | nil => simp [lc_socket_group_joined_loop]
  | cons g rest ih =>
    by_cases h : g.grp = grp
    · simp [lc_socket_group_joined_loop, h]
    · have h1 : ¬ grp = g.grp := fun e => h e.symm
      simp [lc_socket_group_joined_loop, h, h1, ih]

/-- A join keeps a duplicate-free set duplicate-free. -/
theorem lc_socket_group_add_loop_nodup (a : Nat) (grp : in6_addr) (l : List lc_grplist_s)
    (h : (l.map (fun g => g.grp)).Nodup) :
    ((lc_socket_group_add_loop a grp l).map (fun g => g.grp)).Nodup := by
  rw [lc_socket_group_add_loop_eq]
  by_cases hm : grp ∈ l.map (fun g => g.grp)
  · simp only [hm, if_true]; exact h
  · simp only [hm, if_false, List.map_append, List.map_cons, List.map_nil]
    rw [List.nodup_append]
    refine ⟨h, List.nodup_singleton _, ?_⟩
    intro x hx hx1
    rw [List.mem_singleton] at hx1
    subst hx1
    exact hm hx

/-- A set built only by joins, starting from the empty set, has no duplicate group. -/
theorem lc_socket_group_add_foldl_nodup (js : List (Nat × in6_addr)) :
    ∀ sock : lc_socket_t, (sock.grps.map (fun g => g.grp)).Nodup →
      ((js.foldl (fun s j => lc_socket_group_add s j.1 j.2) sock).grps.map
        (fun g => g.grp)).Nodup := by
  induction js with
  | nil => intro sock h; exact h
  | cons j rest ih =>
    intro sock h
    exact ih _ (lc_socket_group_add_loop_nodup j.1 j.2 sock.grps h)

/-- A duplicate-free set holds at most one entry for a group. -/
theorem filter_grp_length_le_one (l : List lc_grplist_s) (x : in6_addr)
    (h : (l.map (fun g => g.grp)).Nodup) :
    (l.filter (fun g => g.grp = x)).length ≤ 1 := by
  induction l with
  | nil => simp
  | cons g rest ih =>
    rw [List.map_cons, List.nodup_cons] at h
    by_cases hg : g.grp = x
    · have h0 : rest.filter (fun g => g.grp = x) = [] := by
        rw [List.filter_eq_nil_iff]
        intro n hn hnx
        apply h.1
        rw [hg]
        exact List.mem_map.mpr ⟨n, hn, by simpa using hnx⟩
      simp [List.filter_cons, hg, h0]
    · simp only [List.filter_cons, hg, decide_False, Bool.false_eq_true, if_false]
      exact ih h.2

/-- Claim C10.  For every join set and every group `X`, the second of two joins of `X`
changes nothing, `lc_socket_group_joined` then returns 1 for `X`, the set holds at least one
entry for `X` and the entries of every other group are what they were, in the same order.
A set built only by joins (from the empty set, any sequence of joins) has no duplicate
group, and after two further joins of `X` it holds exactly one entry for `X`. -/
theorem lc_socket_group_add_idempotent (sock : lc_socket_t) (x : in6_addr) (a1 a2 : Nat)
    (js : List (Nat × in6_addr)) :
    lc_socket_group_add (lc_socket_group_add sock a1 x) a2 x = lc_socket_group_add sock a1 x ∧
    lc_socket_group_joined (lc_socket_group_add (lc_socket_group_add sock a1 x) a2 x) x = 1 ∧
    ((lc_socket_group_add (lc_socket_group_add sock a1 x) a2 x).grps.filter
        (fun g => g.grp = x)).length = max 1 ((sock.grps.filter (fun g => g.grp = x)).length) ∧
    (lc_socket_group_add (lc_socket_group_add sock a1 x) a2 x).grps.filter (fun g => g.grp ≠ x)
      = sock.grps.filter (fun g => g.grp ≠ x) ∧
    ((js.foldl (fun s j => lc_socket_group_add s j.1 j.2) { sock with grps := [] }).grps.map
      (fun g => g.grp)).Nodup ∧
    ((lc_socket_group_add (lc_socket_group_add
        (js.foldl (fun s j => lc_socket_group_add s j.1 j.2) { sock with grps := [] }) a1 x)
        a2 x).grps.filter (fun g => g.grp = x)).length = 1 := by
  have key : ∀ s : lc_socket_t,
      lc_socket_group_add (lc_socket_group_add s a1 x) a2 x = lc_socket_group_add s a1 x ∧
      x ∈ (lc_socket_group_add s a1 x).grps.map (fun g => g.grp) ∧
      ((lc_socket_group_add s a1 x).grps.filter (fun g => g.grp = x)).length
        = max 1 ((s.grps.filter (fun g => g.grp = x)).length) ∧
      (lc_socket_group_add s a1 x).grps.filter (fun g => g.grp ≠ x)
        = s.grps.filter (fun g => g.grp ≠ x) := by
    intro s
    have hmem : x ∈ (lc_socket_group_add s a1 x).grps.map (fun g => g.grp) := by
      simp only [lc_socket_group_add, lc_socket_group_add_loop_eq]
      by_cases hm : x ∈ s.grps.map (fun g => g.grp)
      · simp only [hm, if_true]
      · simp [hm]
    refine ⟨?_, hmem, ?_, ?_⟩
    · have h2 := lc_socket_group_add_loop_eq a2 x (lc_socket_group_add s a1 x).grps
      rw [if_pos hmem] at h2
      simp only [lc_socket_group_add] at h2 ⊢
      rw [h2]
    · simp only [lc_socket_group_add, lc_socket_group_add_loop_eq]
      by_cases hm : x ∈ s.grps.map (fun g => g.grp)
      · simp only [hm, if_true]
        have : 0 < (s.grps.filter (fun g => g.grp = x)).length := by
          rw [List.length_pos]
          obtain ⟨g, hg, hgx⟩ := List.mem_map.mp hm
          exact List.ne_nil_of_mem (List.mem_filter.mpr ⟨hg, by simpa using hgx⟩)
        omega
      · have h0 : s.grps.filter (fun g => g.grp = x) = [] := by
          rw [List.filter_eq_nil_iff]
          intro g hg hgx
          exact hm (List.mem_map.mpr ⟨g, hg, by simpa using hgx⟩)
        simp [hm, h0]
    · simp only [lc_socket_group_add, lc_socket_group_add_loop_eq]
      by_cases hm : x ∈ s.grps.map (fun g => g.grp)
      · simp only [hm, if_true]
      · simp [hm]
  obtain ⟨k1, k2, k3, k4⟩ := key sock
  have hnd := lc_socket_group_add_foldl_nodup js { sock with grps := [] } (by simp)
  refine ⟨k1, ?_, ?_, ?_, hnd, ?_⟩
  · rw [k1]
    simp only [lc_socket_group_joined, lc_socket_group_joined_loop_eq, k2, if_true]
  · rw [k1]; exact k3
  · rw [k1]; exact k4
  · obtain ⟨j1, _, j3, _⟩ :=
      key (js.foldl (fun s j => lc_socket_group_add s j.1 j.2) { sock with grps := [] })
    rw [j1, j3]
    have hle := filter_grp_length_le_one
      (js.foldl (fun s j => lc_socket_group_add s j.1 j.2) { sock with grps := [] }).grps x hnd
    omega

/-- The address after the sideband store, byte by byte. -/
theorem store_band_eq (addr : in6_addr) (band : Nat) :
    store_band addr band =
      [addr.getD 0 0, addr.getD 1 0, addr.getD 2 0, addr.getD 3 0, addr.getD 4 0,
       addr.getD 5 0, addr.getD 6 0, addr.getD 7 0] ++ le64 band := by
  simp [store_band, IN6_SIZE, List.range_succ, le64]

/-- Reading the host-order bytes of a value gives the value back, reduced to 64 bits. -/
theorem le64toh_le64 (x : Nat) : le64toh (le64 x) = x % 2 ^ 64 := by
  simp only [le64, le64toh, List.getD_cons_zero, List.getD_cons_succ]
  norm_num
  omega

/-- Claim C11.  For every base channel and every band, `lc_channel_sideband` returns a
channel at the newly allocated address, in the context passed as `base->ctx`, pushed on the
head of that context's channel list whose other channels (the base among them) and whose
sockets are unchanged.  Its group address has 16 bytes, equals the base's in bytes 0..7 and
holds in bytes 8..15 the host-order (little-endian) bytes of `band`, which read back as
`band` reduced to 64 bits; family and port are those of the base, and the new channel is
unbound with sequence and nonce 0. -/
theorem lc_channel_sideband_group (g : lc_globals) (ctx : lc_ctx_t) (p : Nat)
    (base : lc_channel_t) (band : Nat) :
    (lc_channel_sideband g ctx p base band).2.2.ptr = p ∧
    (lc_channel_sideband g ctx p base band).2.2.ctx = ctx.ptr ∧
    (lc_channel_sideband g ctx p base band).2.1.chan_list
      = (lc_channel_sideband g ctx p base band).2.2 :: ctx.chan_list ∧
    (lc_channel_sideband g ctx p base band).2.1.sock_list = ctx.sock_list ∧
    (lc_channel_sideband g ctx p base band).2.2.sa.sin6_addr.length = 16 ∧
    (∀ i : Fin 8, (lc_channel_sideband g ctx p base band).2.2.sa.sin6_addr.getD i 0
      = base.sa.sin6_addr.getD i 0) ∧
    (lc_channel_sideband g ctx p base band).2.2.sa.sin6_addr.drop 8 = le64 band ∧
    le64toh ((lc_channel_sideband g ctx p base band).2.2.sa.sin6_addr.drop 8) = band % 2 ^ 64 ∧
    (lc_channel_sideband g ctx p base band).2.2.sa.sin6_family = base.sa.sin6_family ∧
    (lc_channel_sideband g ctx p base band).2.2.sa.sin6_port = base.sa.sin6_port ∧
    (lc_channel_sideband g ctx p base band).2.2.sock = none ∧
    (lc_channel_sideband g ctx p base band).2.2.seq = 0 ∧
    (lc_channel_sideband g ctx p base band).2.2.rnd = 0 ∧
    (lc_channel_sideband g ctx p base band).2.2.id = (g.chan_id + 1) % 2 ^ 32 := by
  have hdrop : (store_band base.sa.sin6_addr band).drop 8 = le64 band := by
    rw [store_band_eq]; rfl
  refine ⟨rfl, rfl, rfl, rfl, ?_, ?_, ?_, ?_, rfl, rfl, rfl, rfl, rfl, rfl⟩
  · show (store_band base.sa.sin6_addr band).length = 16
    simp [store_band_eq, le64]
  · intro i
    show (store_band base.sa.sin6_addr band).getD i 0 = base.sa.sin6_addr.getD i 0
    rw [store_band_eq]
    fin_cases i <;> rfl
  · exact hdrop
  · show le64toh ((store_band base.sa.sin6_addr band).drop 8) = band % 2 ^ 64
    rw [hdrop, le64toh_le64]

/-- The sideband example of the specification: the band `0x0102030405060708` on a base
whose address bytes are `ff 1e 03 .. 10`. -/
theorem lc_channel_sideband_example :
    (lc_channel_sideband ⟨0, 0, 1⟩ { ex_ctx with chan_list := [ex_base] } 300 ex_base
        0x0102030405060708).2.2.sa.sin6_addr
      = [0xff, 0x1e, 3, 4, 5, 6, 7, 8, 8, 7, 6, 5, 4, 3, 2, 1] := by
  decide

/-- A non-empty datagram shorter than the header is not rejected by `lc_msg_recv`: the call
returns the datagram's length, which is positive, so the listener goes on to `process_msg`.
(With the software join set: when the destination is joined.) -/
theorem lc_msg_recv_short (cfg : lc_config) (sock : lc_socket_t) (bytes : List Nat)
    (src dst : in6_addr) (q : List rx_event) (m0 : lc_message_t) (buf0 : List Nat)
    (h0 : 0 < bytes.length) (h1 : bytes.length < 33)
    (hj : cfg.softfilter = true → lc_socket_group_joined sock dst = 1) :
    ∃ rr, lc_msg_recv cfg sock (.dgram ⟨bytes, src, some dst⟩ :: q) m0 buf0 = some rr ∧
      rr.ret = bytes.length ∧ 0 < rr.ret ∧ rr.msg.dst = dst ∧
      rr.buf = bytes ++ buf0.drop bytes.length := by
  have hlt : ¬ HEAD_SIZE < bytes.length := by simp [HEAD_SIZE]; omega
  have htake : bytes.take HEAD_SIZE = bytes := List.take_of_length_le (by simp [HEAD_SIZE]; omega)
  have hdrop : bytes.drop HEAD_SIZE = [] := List.drop_of_length_le (by simp [HEAD_SIZE]; omega)
  have hnot : ¬ ((bytes.length : Int) ≤ 0) := by omega
  rw [lc_msg_recv]
  simp only [hlt, if_false, htake, hdrop, List.take_nil, List.length_nil, Nat.add_zero,
    List.drop_zero, hnot]
  by_cases hs : cfg.softfilter = true
  · simp [hs, hj hs, h0]
  · simp [hs, h0]

/-- Claim C12, the code at the failing input.  A one-byte datagram arrives for the joined
group `ff1e::1` while the header buffer on the stack still holds an older header (sequence
50, nonce 77, opcode 0).  The listener turn does not discard it: the channel's sequence
goes from 7 to 51, its nonce from 0 to 77, and the user message callback is called twice. -/
theorem lc_socket_listen_thread_step_short :
    (lc_socket_listen_thread_step ex_cfg ex_os ex_ctx ⟨100, true, true⟩ lc_msg_init
        [.dgram ⟨[9], ex_src, some ex_A⟩] (head_bytes 1000 50 77 LC_OP_DATA 1)).map
      (fun r => (r.1.chan_list.map (fun c => (c.seq, c.rnd)),
                 (r.2.2.2.filter is_callback_msg).length)) = some ([(51, 77)], 2) ∧
    ex_ctx.chan_list.map (fun c => (c.seq, c.rnd)) = [(7, 0)] := by
  decide

/-- Claim C13, the code at the failing input.  A PING datagram carries one payload byte
while its header's length field says 1000.  `lc_msg_recv` succeeds and leaves `len = 1000`
with a payload buffer of one byte; the PONG reply `lc_msg_send` then makes on the resolved
channel copies `len` bytes from that buffer and reads past its end (`none`), and so does
`process_msg`. -/
theorem lc_msg_recv_len_exceeds_buffer :
    (lc_msg_recv ex_cfg ex_sock
        [.dgram ⟨head_bytes 1000 1 77 LC_OP_PING 1000 ++ [112], ex_src, some ex_A⟩]
        lc_msg_init []).map (fun r => (r.ret, r.msg.len, r.msg.data))
      = some (34, 1000, some [112]) ∧
    (lc_msg_recv ex_cfg ex_sock
        [.dgram ⟨head_bytes 1000 1 77 LC_OP_PING 1000 ++ [112], ex_src, some ex_A⟩]
        lc_msg_init []).map
      (fun r => ((lc_msg_send ex_os ex_chan (lc_msg_set_opcode r.msg LC_OP_PONG)).isNone,
                 (process_msg ex_cfg ex_os ex_ctx ex_sock ⟨100, true, true⟩
                    { r.msg with bytes := r.ret }).isNone))
      = some (true, true) := by
  decide

/-- What `process_msg` does with a DATA message when a user message callback is installed,
whether or not the destination resolves to a channel: it returns, and its events end with
two calls of the callback on the same message, preceded by no other callback call. -/
theorem process_msg_data (cfg : lc_config) (os : send_os) (ctx : lc_ctx_t)
    (sock : lc_socket_t) (sc : lc_socket_call_t) (msg : lc_message_t)
    (hop : msg.op = LC_OP_DATA) (hmax : LC_OP_DATA < cfg.LC_OP_MAX)
    (hcb : sc.callback_msg = true) :
    ∃ ctx1 m ev0,
      process_msg cfg os ctx sock sc msg
        = some (ctx1, m, ev0 ++ [lc_event.callback_msg m, lc_event.callback_msg m]) ∧
      ev0.filter is_callback_msg = [] ∧
      m.op = LC_OP_DATA ∧ m.data = msg.data ∧ m.len = msg.len ∧ m.seq = msg.seq ∧
      m.dst = msg.dst ∧ m.bytes = msg.bytes := by
  have hm : msg.op < cfg.LC_OP_MAX := by rw [hop]; exact hmax
  cases hfind : lc_channel_by_address ctx msg.dst with
  | some chan =>
    rw [process_msg_found cfg os ctx sock sc msg chan hfind
      (fun h => by rw [hop] at h; exact absurd h (by decide))]
    refine ⟨chan_store ctx { chan with
          seq := if chan.seq < msg.seq then (msg.seq + 1) % 2 ^ 64 else (chan.seq + 1) % 2 ^ 64,
          rnd := msg.rnd },
      { msg with dstaddr := msg.dst, srcaddr := msg.src, sockid := sock.id,
                 chan := some chan.ptr },
      (if cfg.logger then
        [lc_event.msg_logger chan.ptr
          { msg with dstaddr := msg.dst, srcaddr := msg.src, sockid := sock.id,
                     chan := some chan.ptr }] else []), ?_, ?_, hop, rfl, rfl, rfl, rfl, rfl⟩
    · simp [hop, hmax, hcb]
    · by_cases hl : cfg.logger = true <;> simp [hl, is_callback_msg]
  | none =>
    refine ⟨ctx, { msg with dstaddr := msg.dst, srcaddr := msg.src, sockid := sock.id }, [],
      ?_, rfl, hop, rfl, rfl, rfl, rfl, rfl⟩
    have hm0 : 0 < cfg.LC_OP_MAX := hmax
    simp [process_msg, hfind, hop, LC_OP_DATA, hm0, lc_op_data_handler, hcb]

/-- Claim C4, amended.  Whenever `lc_msg_recv` returns a datagram (positive length) whose
decoded opcode is DATA and a user message callback is installed, the listener turn
completes and calls the user message callback exactly twice, both times with the message of
that datagram: once from `lc_op_data_handler` and once at the end of `process_msg`. -/
theorem lc_socket_listen_thread_step_data (cfg : lc_config) (os : send_os) (ctx : lc_ctx_t)
    (sc : lc_socket_call_t) (sock : lc_socket_t) (msg : lc_message_t)
    (queue : List rx_event) (buf : List Nat) (rr : recv_result)
    (hsock : sock_at ctx sc.sock = some sock)
    (hrecv : lc_msg_recv cfg sock queue msg buf = some rr)
    (hpos : 0 < rr.ret) (hop : rr.msg.op = LC_OP_DATA)
    (hmax : LC_OP_DATA < cfg.LC_OP_MAX) (hcb : sc.callback_msg = true) :
    ∃ ctx1 m1 ev m,
      lc_socket_listen_thread_step cfg os ctx sc msg queue buf
        = some (ctx1, m1, rr.queue, ev) ∧
      ev.filter is_callback_msg = [lc_event.callback_msg m, lc_event.callback_msg m] ∧
      (ev.filter is_callback_msg).length = 2 ∧
      m.op = LC_OP_DATA ∧ m.data = rr.msg.data ∧ m.len = rr.msg.len ∧
      m.seq = rr.msg.seq ∧ m.dst = rr.msg.dst ∧ m.bytes = rr.ret := by
  obtain ⟨ctx1, m, ev0, h1, h2, h3, h4, h5, h6, h7, h8⟩ :=
    process_msg_data cfg os ctx sock sc { rr.msg with bytes := rr.ret } hop hmax hcb
  have hnneg : ¬ rr.ret < 0 := by omega
  have hf : (ev0 ++ [lc_event.callback_msg m, lc_event.callback_msg m]).filter is_callback_msg
      = [lc_event.callback_msg m, lc_event.callback_msg m] := by
    rw [List.filter_append, h2]
    simp [is_callback_msg]
  refine ⟨ctx1, lc_msg_free m, ev0 ++ [lc_event.callback_msg m, lc_event.callback_msg m], m,
    ?_, hf, by rw [hf]; rfl, h3, h4, h5, h6, h7, h8⟩
  simp only [lc_socket_listen_thread_step, hsock, hrecv, hpos, if_true, h1, hnneg, if_false,
    List.append_nil]

/-- Claim C4, witness: the DATA datagram with the one-byte payload `x` of the counterexample. -/
theorem lc_socket_listen_thread_step_data_witness :
    ∃ ctx1 m1 ev m,
      lc_socket_listen_thread_step ex_cfg ex_os ex_ctx ⟨100, true, true⟩ lc_msg_init
          [.dgram ⟨head_bytes 1000 1 77 LC_OP_DATA 1 ++ [120], ex_src, some ex_A⟩] []
        = some (ctx1, m1, [], ev) ∧
      ev.filter is_callback_msg = [lc_event.callback_msg m, lc_event.callback_msg m] ∧
      (ev.filter is_callback_msg).length = 2 ∧
      m.op = LC_OP_DATA ∧ m.data = some [120] ∧ m.len = 1 ∧
      m.seq = 1 ∧ m.dst = ex_A ∧ m.bytes = 34 :=
  lc_socket_listen_thread_step_data ex_cfg ex_os ex_ctx ⟨100, true, true⟩ ex_sock lc_msg_init
    [.dgram ⟨head_bytes 1000 1 77 LC_OP_DATA 1 ++ [120], ex_src, some ex_A⟩] []
    ⟨34, { ex_delivered with bytes := 0, sockid := 0, chan := none, srcaddr := [],
                             dstaddr := [] }, [],
      head_bytes 1000 1 77 LC_OP_DATA 1⟩
    (by decide) (by decide) (by decide) (by decide) (by decide) (by decide)

/-- Claim C5, counterexample.  A PING datagram carries the payload `[112, 113]` while its
header's length field says 1: `lc_msg_recv` sets `len = 1` and the PONG that is sent carries
the payload `[112]`, not the payload of the PING.  A PING that is a bare header with length
field 5 gets no PONG at all: the reply fails with LC_ERROR_MESSAGE_EMPTY. -/
theorem process_msg_ping_pong_counterexample :
    (lc_msg_recv ex_cfg ex_sock
        [.dgram ⟨head_bytes 1000 1 77 LC_OP_PING 1 ++ [112, 113], ex_src, some ex_A⟩]
        lc_msg_init []).bind (fun rr =>
      (process_msg ex_cfg ex_os ex_ctx ex_sock ⟨100, true, true⟩
          { rr.msg with bytes := rr.ret }).map (fun r => sendto_payloads r.2.2))
      = some [[112]] ∧
    (lc_msg_recv ex_cfg ex_sock
        [.dgram ⟨head_bytes 1000 1 77 LC_OP_PING 5, ex_src, some ex_A⟩]
        lc_msg_init []).bind (fun rr =>
      (process_msg ex_cfg ex_os ex_ctx ex_sock ⟨100, true, true⟩
          { rr.msg with bytes := rr.ret }).map (fun r => sendto_payloads r.2.2))
      = some [] := by
  decide

end Librecast
